import Mathlib

/-!
Verification development for the ODT editor's document-conversion core.

The TypeScript sources are shallowly embedded: JavaScript numbers are
modelled by exact rationals extended with `NaN` and the two infinities,
JavaScript strings by Lean `String`s (operating on their character lists),
and insertion-ordered `Map`s / plain objects by association lists kept in
insertion order.  Fallible operations return `Option`.
-/

set_option autoImplicit false

namespace ODT

/-! ## JavaScript number model -/

/-- Model of a JavaScript number: an exact rational, or one of the special
values `NaN`, `Infinity`, `-Infinity`.  (IEEE-754 rounding is modelled by
exact rational arithmetic.) -/
inductive JsNum where
  | nan
  | inf
  | negInf
  | num (q : ℚ)
deriving DecidableEq

namespace JsNum

/-- `Number.isFinite`. -/
def isFinite : JsNum → Bool
  | num _ => true
  | _ => false

/-- `Number.isNaN`. -/
def isNaN : JsNum → Bool
  | nan => true
  | _ => false

/-- The JavaScript comparison `v <= 0` (false on `NaN`). -/
def leZero : JsNum → Bool
  | nan => false
  | inf => false
  | negInf => true
  | num q => decide (q ≤ 0)

/-- The JavaScript comparison `v > 0` (false on `NaN`). -/
def gtZero : JsNum → Bool
  | nan => false
  | inf => true
  | negInf => false
  | num q => decide (0 < q)

/-- Multiplication by a (nonzero) rational constant. -/
def mulC (v : JsNum) (c : ℚ) : JsNum :=
  match v with
  | nan => nan
  | inf => if 0 < c then inf else if c < 0 then negInf else nan
  | negInf => if 0 < c then negInf else if c < 0 then inf else nan
  | num q => num (q * c)

/-- Division by a (nonzero) rational constant. -/
def divC (v : JsNum) (c : ℚ) : JsNum :=
  match v with
  | nan => nan
  | inf => if 0 < c then inf else negInf
  | negInf => if 0 < c then negInf else inf
  | num q => num (q / c)

end JsNum

/-- JavaScript rounding to an integer (`Math.round` and the rounding of
`toFixed`): round to nearest, ties toward `+∞`. -/
def jsRound (x : ℚ) : ℤ := ⌊x + 1 / 2⌋

/-- `Math.round` on the number model. -/
def jsRoundNum : JsNum → JsNum
  | JsNum.nan => JsNum.nan
  | JsNum.inf => JsNum.inf
  | JsNum.negInf => JsNum.negInf
  | JsNum.num q => JsNum.num (jsRound q)

/-! ## JavaScript string primitives

All string manipulation is done on the underlying character lists so that
every definition evaluates by plain kernel reduction. -/

/-- `String.prototype.trim`. -/
def jsTrim (s : String) : String :=
  ⟨((s.data.dropWhile Char.isWhitespace).reverse.dropWhile Char.isWhitespace).reverse⟩

/-- `String.prototype.toLowerCase` (ASCII, which covers every use here). -/
def jsToLower (s : String) : String :=
  ⟨s.data.map Char.toLower⟩

/-- JavaScript `s.length` (code units; all strings involved are ASCII). -/
def jsLen (s : String) : ℕ := s.data.length

/-- JavaScript `s.slice(0, -n)`. -/
def jsDropRight (s : String) (n : ℕ) : String :=
  ⟨s.data.take (s.data.length - n)⟩

/-- JavaScript `s.slice(0, n)` for `0 ≤ n`. -/
def jsTake (s : String) (n : ℕ) : String :=
  ⟨s.data.take n⟩

/-- JavaScript `s.slice(n)` for `0 ≤ n`. -/
def jsDrop (s : String) (n : ℕ) : String :=
  ⟨s.data.drop n⟩

/-- JavaScript `s.endsWith(t)`. -/
def jsEndsWith (s t : String) : Bool :=
  t.data.isSuffixOf s.data

/-- JavaScript `s.startsWith(t)`. -/
def jsStartsWith (s t : String) : Bool :=
  t.data.isPrefixOf s.data

/-- Containment of one character list in another. -/
def listIncludes (t : List Char) : List Char → Bool
  | [] => t.isEmpty
  | c :: rest => t.isPrefixOf (c :: rest) || listIncludes t rest

/-- JavaScript `s.includes(t)`. -/
def jsIncludes (s t : String) : Bool :=
  listIncludes t.data s.data

/-- Split a character list at every occurrence of the separator character
(the JavaScript `s.split(sep)` for a one-character separator). -/
def splitOnCharAux (sep : Char) : List Char → List Char → List (List Char)
  | [], cur => [cur.reverse]
  | c :: rest, cur =>
    if c = sep then cur.reverse :: splitOnCharAux sep rest []
    else splitOnCharAux sep rest (c :: cur)

/-- JavaScript `s.split(sep)` for a one-character separator. -/
def jsSplitChar (s : String) (sep : Char) : List String :=
  (splitOnCharAux sep s.data []).map fun l => ⟨l⟩

/-- Digit run to its numeric value. -/
def digitsToNat (l : List Char) : ℕ :=
  l.foldl (fun a c => a * 10 + (c.toNat - 48)) 0

/-- Model of JavaScript `parseFloat`: skip leading whitespace, read an
optional sign, then either `Infinity` or a decimal significand with an
optional well-formed exponent; `NaN` when no digits can be read. -/
def parseFloat (s : String) : JsNum :=
  let cs := s.data.dropWhile Char.isWhitespace
  let (neg, cs) :=
    match cs with
    | '-' :: t => (true, t)
    | '+' :: t => (false, t)
    | _ => (false, cs)
  if ("Infinity").data.isPrefixOf cs then
    (if neg then JsNum.negInf else JsNum.inf)
  else
    let ip := cs.takeWhile Char.isDigit
    let rest := cs.drop ip.length
    let (fp, rest2) :=
      match rest with
      | '.' :: t => (t.takeWhile Char.isDigit, t.drop (t.takeWhile Char.isDigit).length)
      | _ => ([], rest)
    if ip.isEmpty && fp.isEmpty then JsNum.nan
    else
      let mantissa : ℚ := (digitsToNat ip : ℚ) + (digitsToNat fp : ℚ) / (10 : ℚ) ^ fp.length
      let exp : ℤ :=
        match rest2 with
        | 'e' :: t => parseExpTail t
        | 'E' :: t => parseExpTail t
        | _ => 0
      let mag : ℚ := mantissa * (10 : ℚ) ^ exp
      JsNum.num (if neg then -mag else mag)
where
  /-- Exponent tail after `e`/`E`: optional sign then digits; a malformed
  exponent is not consumed (contributes `0`). -/
  parseExpTail (t : List Char) : ℤ :=
    match t with
    | '-' :: d => if (d.takeWhile Char.isDigit).isEmpty then 0 else -(digitsToNat (d.takeWhile Char.isDigit) : ℤ)
    | '+' :: d => if (d.takeWhile Char.isDigit).isEmpty then 0 else (digitsToNat (d.takeWhile Char.isDigit) : ℤ)
    | d => if (d.takeWhile Char.isDigit).isEmpty then 0 else (digitsToNat (d.takeWhile Char.isDigit) : ℤ)

/-- Model of JavaScript `parseInt(s, 10)`: skip whitespace, optional sign,
then a decimal digit run; `none` models `NaN`. -/
def parseIntJs (s : String) : Option ℤ :=
  let cs := s.data.dropWhile Char.isWhitespace
  let (neg, cs) :=
    match cs with
    | '-' :: t => (true, t)
    | '+' :: t => (false, t)
    | _ => (false, cs)
  let ds := cs.takeWhile Char.isDigit
  if ds.isEmpty then none
  else some (if neg then -(digitsToNat ds : ℤ) else (digitsToNat ds : ℤ))

/-- Left-pad with `'0'` to the given width (`padStart(n, '0')`). -/
def padZeros (s : String) (n : ℕ) : String :=
  ⟨List.replicate (n - s.data.length) '0' ++ s.data⟩

/-- `q.toFixed(d)` on the exact-rational model. -/
def ratToFixed (q : ℚ) (d : ℕ) : String :=
  let n : ℤ := if 0 ≤ q then jsRound (q * (10 : ℚ) ^ d) else -jsRound (-q * (10 : ℚ) ^ d)
  let sign := if n < 0 then "-" else ""
  let m := n.natAbs
  if d = 0 then sign ++ Nat.repr m
  else sign ++ Nat.repr (m / 10 ^ d) ++ "." ++ padZeros (Nat.repr (m % 10 ^ d)) d

/-- Decimal rendering after `Number(x.toFixed(2))` followed by
`Number.isInteger(v) ? v.toFixed(0) : v.toString()`: round to two decimal
places and print without trailing zeros. -/
def shortDecimal2 (q : ℚ) : String :=
  let n : ℤ := if 0 ≤ q then jsRound (q * 100) else -jsRound (-q * 100)
  let sign := if n < 0 then "-" else ""
  let m := n.natAbs
  let ip := m / 100
  let fp := m % 100
  if fp = 0 then sign ++ Nat.repr ip
  else if fp % 10 = 0 then sign ++ Nat.repr ip ++ "." ++ Nat.repr (fp / 10)
  else sign ++ Nat.repr ip ++ "." ++ padZeros (Nat.repr fp) 2

/-- Hex digit character (lowercase), as produced by `toString(16)`. -/
def hexDigitChar (n : ℕ) : Char :=
  if n < 10 then Char.ofNat (48 + n) else Char.ofNat (87 + n)

/-- `n.toString(16)` for a natural number. -/
def natToHex (n : ℕ) : String :=
  if _h : n < 16 then ⟨[hexDigitChar n]⟩
  else natToHex (n / 16) ++ ⟨[hexDigitChar (n % 16)]⟩
decreasing_by exact Nat.div_lt_self (by omega) (by omega)

/-! ## Color and length normalization (htmlToOdt converter) -/

/-- Hexadecimal digit test, case-insensitive (the character class of the
regex `/^#[0-9a-f]\x7b3,8\x7d$/i`). -/
def isHexDigitCI (c : Char) : Bool :=
  c.isDigit || ('a' ≤ c && c ≤ 'f') || ('A' ≤ c && c ≤ 'F')

/-- Test of the regex `/^#[0-9a-f]\x7b3,8\x7d$/i`. -/
def hexColorTest (s : String) : Bool :=
  match s.data with
  | '#' :: rest => rest.all isHexDigitCI && decide (3 ≤ rest.length) && decide (rest.length ≤ 8)
  | _ => false

/-- Match of the regex `/^rgba?\(([^)]+)\)$/i`, returning the capture
group: the case-insensitive prefix `rgb(` or `rgba(`, then a nonempty
run without `)`, then a final `)`. -/
def rgbMatchInner (s : String) : Option String :=
  let afterPre : Option (List Char) :=
    if jsStartsWith (jsToLower s) ("rgba(") then some (s.data.drop 5)
    else if jsStartsWith (jsToLower s) ("rgb(") then some (s.data.drop 4)
    else none
  match afterPre with
  | none => none
  | some rest =>
    match rest.reverse with
    | ')' :: innerRev =>
      let inner := innerRev.reverse
      if inner.isEmpty || inner.any (fun c => c = ')') then none
      else some ⟨inner⟩
    | _ => none

/-- One parsed `rgb()` argument: the channels at indices `0..2` are
numbers, the alpha argument at index `3` is kept as a string. -/
inductive RgbPart where
  | numv (v : JsNum)
  | strv (s : String)
deriving DecidableEq

/-- Channel to two lowercase hex digits, clamping to `[0, 255]` (the
`toHex` closure inside `normalizeColor`). -/
def channelToHex (v : JsNum) : String :=
  match v with
  | JsNum.num q => padZeros (natToHex (max 0 (min 255 q)).num.toNat) 2
  | JsNum.inf => padZeros (natToHex 255) 2
  | JsNum.negInf => padZeros (natToHex 0) 2
  | JsNum.nan => "nan"

/-- The converter's `normalizeColor` (htmlToOdt): expand 3-digit hex, pass
6-digit hex through, truncate 8-digit hex, convert `rgb()/rgba()` triples
to hex; anything else is returned trimmed but otherwise unchanged. -/
def normalizeColor (value : String) : String :=
  let trimmed := jsTrim value
  if trimmed = "" then ""
  else if hexColorTest trimmed then
    (match trimmed.data with
     | '#' :: a :: b :: c :: [] => ⟨['#', a, a, b, b, c, c]⟩
     | _ =>
       if jsLen trimmed = 7 then trimmed
       else if jsLen trimmed = 9 then jsTake trimmed 7
       else trimmed)
  else
    match rgbMatchInner trimmed with
    | some inner =>
      let parts : List RgbPart :=
        ((jsSplitChar inner ',').map jsTrim).enum.map fun (index, part) =>
          if index = 3 then RgbPart.strv part
          else if jsEndsWith part ("%") then
            match parseFloat part with
            | JsNum.nan => RgbPart.numv (JsNum.num 0)
            | p => RgbPart.numv (jsRoundNum (p.divC 100 |>.mulC 255))
          else
            match parseFloat part with
            | JsNum.nan => RgbPart.numv (JsNum.num 0)
            | p => RgbPart.numv (jsRoundNum p)
      match parts[0]?, parts[1]?, parts[2]? with
      | some (RgbPart.numv r), some (RgbPart.numv g), some (RgbPart.numv b) =>
        "#" ++ channelToHex r ++ channelToHex g ++ channelToHex b
      | _, _, _ => trimmed
    | none => trimmed

/-- The converter's `pxToCm`: positive finite pixel counts to a
centimeter string with four decimals (96 px per inch, 2.54 cm per inch). -/
def pxToCm (value : JsNum) : Option String :=
  if !value.isFinite || value.leZero then none
  else
    let cm := (value.divC 96).mulC (254 / 100)
    if !cm.isFinite || cm.leZero then none
    else
      match cm with
      | JsNum.num q => some (ratToFixed q 4 ++ "cm")
      | _ => none

/-- The converter's `cssLengthToCm`: trim and lowercase, dispatch on the
unit suffix, and discard non-positive or non-finite parses. -/
def cssLengthToCm (value : String) : Option String :=
  let trimmed := jsToLower (jsTrim value)
  if trimmed = "" then none
  else if jsEndsWith trimmed ("cm") then
    match parseFloat (jsDropRight trimmed 2) with
    | JsNum.num q => if 0 < q then some (ratToFixed q 4 ++ "cm") else none
    | _ => none
  else if jsEndsWith trimmed ("mm") then
    match parseFloat (jsDropRight trimmed 2) with
    | JsNum.num q => if 0 < q then some (ratToFixed (q / 10) 4 ++ "cm") else none
    | _ => none
  else if jsEndsWith trimmed ("in") then
    match parseFloat (jsDropRight trimmed 2) with
    | JsNum.num q => if 0 < q then some (ratToFixed (q * (254 / 100)) 4 ++ "cm") else none
    | _ => none
  else if jsEndsWith trimmed ("pt") then
    match parseFloat (jsDropRight trimmed 2) with
    | JsNum.num q => if 0 < q then some (ratToFixed (q / 72 * (254 / 100)) 4 ++ "cm") else none
    | _ => none
  else if jsEndsWith trimmed ("px") then
    match parseFloat (jsDropRight trimmed 2) with
    | JsNum.num q => if 0 < q then pxToCm (JsNum.num q) else none
    | _ => none
  else
    let numeric := parseFloat trimmed
    if !numeric.isNaN && numeric.gtZero then pxToCm numeric else none

/-- The converter's `formatPt`: `Number(value.toFixed(2))`, then integer
values print without a fraction, others with `toString()`. -/
def formatPt (v : JsNum) : String :=
  match v with
  | JsNum.num q => shortDecimal2 q ++ "pt"
  | JsNum.inf => "Infinitypt"
  | JsNum.negInf => "-Infinitypt"
  | JsNum.nan => "NaNpt"

/-- The converter's `formatPercent`: clamp to `[0, 1000]` then print as
`formatPt` does, with a percent sign. -/
def formatPercent (v : JsNum) : String :=
  match v with
  | JsNum.num q => shortDecimal2 (max 0 (min q 1000)) ++ "%"
  | JsNum.inf => shortDecimal2 1000 ++ "%"
  | JsNum.negInf => shortDecimal2 0 ++ "%"
  | JsNum.nan => "NaN%"

/-- The converter's `cssFontSizeToPt`: px at 0.75 pt/px, pt verbatim,
unitless at 0.75 pt/unit; `NaN` parses yield `none`. -/
def cssFontSizeToPt (value : String) : Option String :=
  let trimmed := jsToLower (jsTrim value)
  if trimmed = "" then none
  else if jsEndsWith trimmed ("px") then
    match parseFloat (jsDropRight trimmed 2) with
    | JsNum.nan => none
    | p => some (formatPt (p.mulC (3 / 4)))
  else if jsEndsWith trimmed ("pt") then
    match parseFloat (jsDropRight trimmed 2) with
    | JsNum.nan => none
    | p => some (formatPt p)
  else
    match parseFloat trimmed with
    | JsNum.nan => none
    | p => some (formatPt (p.mulC (3 / 4)))

/-- The converter's `normalizeLineHeight`: keyword values vanish, `%` is
clamped and kept relative, `px`/`pt` convert to points, `em`/`rem` to
percentages, other absolute units to centimeters, and bare numbers to
percentages. -/
def normalizeLineHeight (value : String) : Option String :=
  let trimmed := jsTrim value
  if trimmed = "" then none
  else
    let lowered := jsToLower trimmed
    if lowered = "normal" || lowered = "inherit" || lowered = "initial" then none
    else if jsEndsWith lowered ("%") then
      match parseFloat (jsDropRight lowered 1) with
      | JsNum.num q => if 0 < q then some (formatPercent (JsNum.num q)) else none
      | JsNum.inf => some (formatPercent JsNum.inf)
      | _ => none
    else if jsEndsWith lowered ("px") then
      match parseFloat (jsDropRight lowered 2) with
      | JsNum.num q => if 0 < q then some (formatPt (JsNum.num (q * (3 / 4)))) else none
      | JsNum.inf => some (formatPt JsNum.inf)
      | _ => none
    else if jsEndsWith lowered ("pt") then
      match parseFloat (jsDropRight lowered 2) with
      | JsNum.num q => if 0 < q then some (formatPt (JsNum.num q)) else none
      | JsNum.inf => some (formatPt JsNum.inf)
      | _ => none
    else if jsEndsWith lowered ("em") || jsEndsWith lowered ("rem") then
      match parseFloat (jsDropRight lowered 2) with
      | JsNum.num q => if 0 < q then some (formatPercent (JsNum.num (q * 100))) else none
      | JsNum.inf => some (formatPercent JsNum.inf)
      | _ => none
    else
      match cssLengthToCm trimmed with
      | some absolute => some absolute
      | none =>
        if lowered.data ≠ [] && lowered.data.all (fun c => c.isDigit || c = '.') then
          match parseFloat lowered with
          | JsNum.num q => if 0 < q then some (formatPercent (JsNum.num (q * 100))) else none
          | JsNum.inf => some (formatPercent JsNum.inf)
          | _ => none
        else none

/-! ## Document model (types.ts) -/

/-- The closed union type of `TextSpan.fontFamily`. -/
inductive FontFamily where
  | body
  | serif
  | gungsuh
deriving DecidableEq

structure TextSpan where
  text : String
  bold : Option Bool := none
  italic : Option Bool := none
  underline : Option Bool := none
  color : Option String := none
  fontSize : Option String := none
  fontFamily : Option FontFamily := none
deriving DecidableEq

/-- The closed union type of `Paragraph.align`.  The member `end` is not a
legal Lean name and is rendered `end_`. -/
inductive ParagraphAlign where
  | start
  | center
  | end_
  | justify
deriving DecidableEq

/-- The string carried by each `align` member. -/
def ParagraphAlign.str : ParagraphAlign → String
  | start => "start"
  | center => "center"
  | end_ => "end"
  | justify => "justify"

structure Paragraph where
  spans : List TextSpan
  align : Option ParagraphAlign := none
  lineHeight : Option String := none
  marginTop : Option String := none
  marginBottom : Option String := none
  marginLeft : Option String := none
  marginRight : Option String := none
  textIndent : Option String := none
deriving DecidableEq

structure TableCell where
  paragraphs : List Paragraph
  colSpan : Option ℕ := none
  rowSpan : Option ℕ := none
  backgroundColor : Option String := none
deriving DecidableEq

structure TableRow where
  cells : List TableCell
deriving DecidableEq

structure Table where
  rows : List TableRow
  widthPct : Option ℚ := none
  widthCm : Option String := none
  columnWidths : Option (List (Option String)) := none
deriving DecidableEq

inductive OdtBlock where
  | paragraph (value : Paragraph)
  | table (value : Table)
deriving DecidableEq

structure OdtMeta where
  title : Option String := none
  creator : Option String := none
deriving DecidableEq

structure OdtStyles where
  bodyFont : Option String := none
deriving DecidableEq

structure OdtDoc where
  meta : OdtMeta
  styles : OdtStyles
  body : List OdtBlock
deriving DecidableEq

/-- JavaScript truthiness of an optional boolean field. -/
def truthyB (o : Option Bool) : Bool := o.getD false

/-- JavaScript truthiness of an optional string field (`undefined` and
`""` are falsy). -/
def truthyS (o : Option String) : Bool :=
  match o with
  | some s => s ≠ ""
  | none => false

/-! ## styleMap.ts -/

def STYLE_MAP : List (String × List (String × String)) := [
  ("text-red", [("color", "#ff0000")]),
  ("text-blue", [("color", "#0070ff")]),
  ("text-green", [("color", "#2ecc71")]),
  ("text-yellow", [("color", "#f1c40f")]),
  ("text-gray", [("color", "#555555")]),
  ("font-12", [("fontSize", "9pt")]),
  ("font-14", [("fontSize", "10.5pt")]),
  ("font-16", [("fontSize", "12pt")]),
  ("font-18", [("fontSize", "13.5pt")]),
  ("font-20", [("fontSize", "15pt")]),
  ("font-24", [("fontSize", "18pt")]),
  ("ql-size-small", [("fontSize", "8pt")]),
  ("ql-size-large", [("fontSize", "14pt")]),
  ("ql-size-huge", [("fontSize", "24pt")]),
  ("center", [("textAlign", "center")]),
  ("right", [("textAlign", "end")]),
  ("left", [("textAlign", "start")]),
  ("ql-align-center", [("textAlign", "center")]),
  ("ql-align-right", [("textAlign", "end")]),
  ("ql-align-left", [("textAlign", "start")]),
  ("ql-align-justify", [("textAlign", "justify")]),
  ("bold", [("fontWeight", "bold")]),
  ("italic", [("fontStyle", "italic")]),
  ("underline", [("textDecoration", "underline")]),
  ("highlight-yellow", [("backgroundColor", "#fff59d")]),
  ("highlight-green", [("backgroundColor", "#d4efdf")]),
  ("highlight-blue", [("backgroundColor", "#d6eaf8")]),
  ("table-bordered", [("border", "1px solid #444")]),
  ("table-borderless", [("border", "none")])]

/-- The `FONT_FAMILY_MAP` record (total over the closed union). -/
def FONT_FAMILY_MAP : FontFamily → String
  | FontFamily.body => "T_Body"
  | FontFamily.serif => "T_Serif"
  | FontFamily.gungsuh => "T_Gungsuh"

/-! ## HTML to document model (htmlToOdt converter) -/

/-- Affine style context accumulated during inline extraction
(`Partial` of `TextSpan` without `text`). -/
structure SpanStyle where
  bold : Option Bool := none
  italic : Option Bool := none
  underline : Option Bool := none
  color : Option String := none
  fontSize : Option String := none
  fontFamily : Option FontFamily := none
deriving DecidableEq

/-- The converter-side `ParagraphStyleProps` (`Pick` of the layout fields
of `Paragraph`); named apart from the builder-side type of the same name. -/
structure HtmlParagraphStyleProps where
  lineHeight : Option String := none
  marginTop : Option String := none
  marginBottom : Option String := none
  marginLeft : Option String := none
  marginRight : Option String := none
  textIndent : Option String := none
deriving DecidableEq

/-- Model of a parsed HTML DOM node: a text node, or an element with its
tag name (uppercase as in the DOM), class list, optional inline `style`
attribute, and child nodes. -/
inductive DomNode where
  | text (content : String)
  | element (tag : String) (classes : List String) (styleAttr : Option String)
      (children : List DomNode)

def DomNode.tagOf : DomNode → String
  | text _ => ""
  | element tag _ _ _ => tag

def DomNode.childrenOf : DomNode → List DomNode
  | text _ => []
  | element _ _ _ children => children

def DomNode.isElement : DomNode → Bool
  | text _ => false
  | element _ _ _ _ => true

def DomNode.classesOf : DomNode → List String
  | text _ => []
  | element _ classes _ _ => classes

def DomNode.styleAttrOf : DomNode → Option String
  | text _ => none
  | element _ _ styleAttr _ => styleAttr

def PARAGRAPH_TAGS : List String :=
  ["P", "DIV", "H1", "H2", "H3", "H4", "H5", "H6", "BLOCKQUOTE"]

def BLOCK_TAG_SPAN_STYLES (tag : String) : Option SpanStyle :=
  if tag = "H1" then some { bold := some true, fontSize := some "24pt" }
  else if tag = "H2" then some { bold := some true, fontSize := some "20pt" }
  else if tag = "H3" then some { bold := some true, fontSize := some "18pt" }
  else if tag = "H4" then some { bold := some true, fontSize := some "16pt" }
  else none

def INLINE_TAG_STYLES (tag : String) : Option SpanStyle :=
  if tag = "STRONG" then some { bold := some true }
  else if tag = "B" then some { bold := some true }
  else if tag = "EM" then some { italic := some true }
  else if tag = "I" then some { italic := some true }
  else if tag = "U" then some { underline := some true }
  else none

/-- Read a property of a plain JavaScript object modelled as an
insertion-ordered association list. -/
def objGet (m : List (String × String)) (k : String) : Option String :=
  (m.find? fun e => e.1 = k).map fun e => e.2

/-- Assign a property of a plain JavaScript object: update in place when
the key exists, append otherwise. -/
def objSet (m : List (String × String)) (k v : String) : List (String × String) :=
  if m.any (fun e => e.1 = k) then m.map fun e => if e.1 = k then (k, v) else e
  else m ++ [(k, v)]

/-- The converter's `toCssPropName`: camelCase to kebab-case, lowercased. -/
def toCssPropName (key : String) : String :=
  ⟨key.data.flatMap fun c => if c.isUpper then ['-', c.toLower] else [c.toLower]⟩

/-- The converter's `collectCssStyles`: class-derived styles from
`STYLE_MAP` first, then inline `style` declarations on top. -/
def collectCssStyles (el : DomNode) : List (String × String) :=
  let styles := el.classesOf.foldl
    (fun styles cls =>
      match objGetEntries STYLE_MAP cls with
      | none => styles
      | some entry => entry.foldl (fun st kv => objSet st (toCssPropName kv.1) kv.2) styles)
    []
  match el.styleAttrOf with
  | none => styles
  | some inlineStyle =>
    if inlineStyle = "" then styles
    else
      (((jsSplitChar inlineStyle ';').map jsTrim).filter fun r => r ≠ "").foldl
        (fun styles rule =>
          match rule.data.findIdx? (fun c => c = ':') with
          | none => styles
          | some colonIndex =>
            let property := jsToLower (jsTrim (jsTake rule colonIndex))
            let value := jsTrim (jsDrop rule (colonIndex + 1))
            if property = "" || value = "" then styles
            else objSet styles property value)
        styles
where
  objGetEntries (m : List (String × List (String × String))) (k : String) :
      Option (List (String × String)) :=
    (m.find? fun e => e.1 = k).map fun e => e.2

/-- The converter's `cssToStyles`: translate a CSS declaration map into a
span-style delta, a paragraph alignment and paragraph layout properties. -/
def cssToStyles (css : List (String × String)) :
    SpanStyle × Option ParagraphAlign × HtmlParagraphStyleProps :=
  let span : SpanStyle := {}
  let span :=
    match objGet css ("font-weight") with
    | some fontWeight =>
      if fontWeight = "" then span
      else
        let weight := jsToLower fontWeight
        let span := if jsIncludes weight ("bold") then { span with bold := some true } else span
        match parseIntJs weight with
        | some numericWeight =>
          if 600 ≤ numericWeight then { span with bold := some true } else span
        | none => span
    | none => span
  let span :=
    match objGet css ("font-style") with
    | some fontStyle =>
      if fontStyle ≠ "" && jsIncludes (jsToLower fontStyle) ("italic") then
        { span with italic := some true }
      else span
    | none => span
  let span :=
    match objGet css ("text-decoration") with
    | some textDecoration =>
      if textDecoration ≠ "" && jsIncludes (jsToLower textDecoration) ("underline") then
        { span with underline := some true }
      else span
    | none => span
  let span :=
    match objGet css ("color") with
    | some color => if color ≠ "" then { span with color := some (normalizeColor color) } else span
    | none => span
  let span :=
    match objGet css ("font-size") with
    | some fontSize =>
      if fontSize = "" then span
      else
        match cssFontSizeToPt fontSize with
        | some pt => if pt ≠ "" then { span with fontSize := some pt } else span
        | none => span
    | none => span
  let align : Option ParagraphAlign :=
    match objGet css ("text-align") with
    | some textAlign =>
      if textAlign = "" then none
      else
        let normalized := jsToLower textAlign
        if normalized = "center" then some ParagraphAlign.center
        else if normalized = "right" || normalized = "end" then some ParagraphAlign.end_
        else if normalized = "justify" then some ParagraphAlign.justify
        else if normalized = "left" || normalized = "start" then some ParagraphAlign.start
        else none
    | none => none
  let paragraph : HtmlParagraphStyleProps := {}
  let paragraph :=
    match objGet css ("line-height") with
    | some raw =>
      if raw = "" then paragraph
      else
        match normalizeLineHeight raw with
        | some lh => if lh ≠ "" then { paragraph with lineHeight := some lh } else paragraph
        | none => paragraph
    | none => paragraph
  let paragraph :=
    match objGet css ("margin-top") with
    | some v =>
      if v = "" then paragraph
      else
        match cssLengthToCm v with
        | some n => if n ≠ "" then { paragraph with marginTop := some n } else paragraph
        | none => paragraph
    | none => paragraph
  let paragraph :=
    match objGet css ("margin-bottom") with
    | some v =>
      if v = "" then paragraph
      else
        match cssLengthToCm v with
        | some n => if n ≠ "" then { paragraph with marginBottom := some n } else paragraph
        | none => paragraph
    | none => paragraph
  let paragraph :=
    match objGet css ("margin-left") with
    | some v =>
      if v = "" then paragraph
      else
        match cssLengthToCm v with
        | some n => if n ≠ "" then { paragraph with marginLeft := some n } else paragraph
        | none => paragraph
    | none => paragraph
  let paragraph :=
    match objGet css ("margin-right") with
    | some v =>
      if v = "" then paragraph
      else
        match cssLengthToCm v with
        | some n => if n ≠ "" then { paragraph with marginRight := some n } else paragraph
        | none => paragraph
    | none => paragraph
  let paragraph :=
    match objGet css ("text-indent") with
    | some v =>
      if v = "" then paragraph
      else
        match cssLengthToCm v with
        | some n => if n ≠ "" then { paragraph with textIndent := some n } else paragraph
        | none => paragraph
    | none => paragraph
  (span, align, paragraph)

/-- The converter's `mergeSpanStyles`: later styles override earlier ones
field by field (a field participates only when it is defined). -/
def mergeSpanStyles (base : SpanStyle) (others : List SpanStyle) : SpanStyle :=
  others.foldl
    (fun acc style =>
      let acc := if style.bold.isSome then { acc with bold := style.bold } else acc
      let acc := if style.italic.isSome then { acc with italic := style.italic } else acc
      let acc := if style.underline.isSome then { acc with underline := style.underline } else acc
      let acc := if style.color.isSome then { acc with color := style.color } else acc
      let acc := if style.fontSize.isSome then { acc with fontSize := style.fontSize } else acc
      acc)
    base

/-- The converter's `getElementStyles`: tag-implied defaults underneath
CSS-derived styles. -/
def getElementStyles (el : DomNode) :
    SpanStyle × Option ParagraphAlign × HtmlParagraphStyleProps :=
  let blockStyle := (BLOCK_TAG_SPAN_STYLES el.tagOf).getD {}
  let tagStyle := (INLINE_TAG_STYLES el.tagOf).getD {}
  let cssStyles := collectCssStyles el
  let (cssSpan, align, paragraph) := cssToStyles cssStyles
  let span := mergeSpanStyles {} [blockStyle, tagStyle, cssSpan]
  (span, align, paragraph)

/-- Build a `TextSpan` from the inherited style context and a text (the
spread `\x7b...inheritedStyle, text\x7d`). -/
def spanOfStyle (st : SpanStyle) (text : String) : TextSpan :=
  { text := text, bold := st.bold, italic := st.italic, underline := st.underline,
    color := st.color, fontSize := st.fontSize, fontFamily := st.fontFamily }

mutual

/-- The converter's `nodeToSpans`: text nodes close over the inherited
style, `<br>` becomes a newline span, elements recurse with their style
delta merged in. -/
def nodeToSpans (node : DomNode) (inheritedStyle : SpanStyle) : List TextSpan :=
  match node with
  | DomNode.text content =>
    if content = "" then [] else [spanOfStyle inheritedStyle content]
  | DomNode.element tag classes styleAttr children =>
    if tag = "BR" then [spanOfStyle inheritedStyle "\n"]
    else
      let (elementStyle, _, _) := getElementStyles (DomNode.element tag classes styleAttr children)
      let combinedStyle := mergeSpanStyles inheritedStyle [elementStyle]
      if children.isEmpty then [] else flattenChildNodes children combinedStyle

/-- The converter's `flattenChildNodes`. -/
def flattenChildNodes (nodes : List DomNode) (inheritedStyle : SpanStyle) : List TextSpan :=
  match nodes with
  | [] => []
  | n :: rest => nodeToSpans n inheritedStyle ++ flattenChildNodes rest inheritedStyle

end

/-- The converter's `sameSpanStyle`: formatting equality with defaulted
absent fields. -/
def sameSpanStyle (a b : TextSpan) : Bool :=
  a.bold.getD false = b.bold.getD false &&
  a.italic.getD false = b.italic.getD false &&
  a.underline.getD false = b.underline.getD false &&
  a.color.getD "" = b.color.getD "" &&
  a.fontSize.getD "" = b.fontSize.getD ""

/-- One step of `mergeAdjacentSpans`: skip empty texts, extend the last
span when the style matches, start a new span otherwise. -/
def mergeStep (merged : List TextSpan) (span : TextSpan) : List TextSpan :=
  if span.text = "" then merged
  else
    match merged.getLast? with
    | some last =>
      if sameSpanStyle last span then
        merged.dropLast ++ [{ last with text := last.text ++ span.text }]
      else merged ++ [span]
    | none => merged ++ [span]

/-- The converter's `mergeAdjacentSpans`. -/
def mergeAdjacentSpans (spans : List TextSpan) : List TextSpan :=
  spans.foldl mergeStep []

/-- The converter's `applyParagraphLayout`. -/
def applyParagraphLayout (target : Paragraph) (styles : HtmlParagraphStyleProps) : Paragraph :=
  let target := if truthyS styles.lineHeight then { target with lineHeight := styles.lineHeight } else target
  let target := if truthyS styles.marginTop then { target with marginTop := styles.marginTop } else target
  let target := if truthyS styles.marginBottom then { target with marginBottom := styles.marginBottom } else target
  let target := if truthyS styles.marginLeft then { target with marginLeft := styles.marginLeft } else target
  let target := if truthyS styles.marginRight then { target with marginRight := styles.marginRight } else target
  let target := if truthyS styles.textIndent then { target with textIndent := styles.textIndent } else target
  target

/-- The converter's `elementToParagraph`: extract and merge the inline
spans; an empty extraction still yields a paragraph for a `<p>` element
and `null` for any other tag. -/
def elementToParagraph (el : DomNode) : Option Paragraph :=
  let (elementSpanStyle, align, paragraphStyles) := getElementStyles el
  let baseStyle := mergeSpanStyles {} [elementSpanStyle]
  let spans := mergeAdjacentSpans (flattenChildNodes el.childrenOf baseStyle)
  if spans.isEmpty then
    if el.tagOf = "P" then
      some (applyParagraphLayout { spans := [], align := align } paragraphStyles)
    else none
  else some (applyParagraphLayout { spans := spans, align := align } paragraphStyles)

/-! ## XML templates (odtTemplates.ts) -/

/-- Replace every occurrence of one character by a replacement string
(JavaScript `s.replace(/c/g, r)` for a one-character pattern). -/
def replaceChar (c : Char) (r : List Char) (l : List Char) : List Char :=
  l.flatMap fun ch => if ch = c then r else [ch]

/-- The template module's `escapeXml`: the five XML special characters to
their entities, ampersands first. -/
def escapeXml (s : String) : String :=
  ⟨replaceChar '\'' ("&apos;").data
    (replaceChar '"' ("&quot;").data
      (replaceChar '>' ("&gt;").data
        (replaceChar '<' ("&lt;").data
          (replaceChar '&' ("&amp;").data s.data))))⟩

/-- The `odfDocumentContent` template: namespace declarations, font
faces, page layout, automatic styles and the body, with the two dynamic
parts interpolated. -/
def odfDocumentContent (contentInnerXml : String) (automaticStylesInner : String) : String :=
  let fontFaceDecls := "\n  <office:font-face-decls>\n    <style:font-face \n      style:name=\"BodyFont\" \n      svg:font-family=\"\x27Malgun Gothic\x27,\x27Nanum Gothic\x27,\x27Apple SD Gothic Neo\x27,\x27Segoe UI Emoji\x27,\x27Apple Color Emoji\x27,\x27Noto Color Emoji\x27,Arial\" \n      style:font-family-generic=\"system\" \n      style:font-pitch=\"variable\"\n    />\n    <style:font-face \n      style:name=\"EmojiFont\" \n      svg:font-family=\"\x27Segoe UI Emoji\x27,\x27Apple Color Emoji\x27,\x27Noto Color Emoji\x27\" \n      style:font-family-generic=\"system\" \n      style:font-pitch=\"variable\"\n    />\n\n    <!-- ✅✅ 궁서체 폰트 선언 추가 -->\n    <style:font-face \n      style:name=\"GungsuhFont\"\n      svg:font-family=\"\x27Gungsuh\x27,\x27궁서\x27,\x27GungsuhChe\x27,\x27궁서체\x27\"\n    />\n  </office:font-face-decls>"
  let pageLayout := "\n  <style:page-layout style:name=\"PageLayout\">\n    <style:page-layout-properties \n      fo:page-width=\"21cm\" fo:page-height=\"29.7cm\"\n      fo:margin-top=\"2cm\" fo:margin-bottom=\"2cm\"\n      fo:margin-left=\"2cm\" fo:margin-right=\"2cm\"\n    />\n  </style:page-layout>\n  <style:master-page style:name=\"Standard\" style:page-layout-name=\"PageLayout\"/>"
  "<?xml version=\"1.0\" encoding=\"UTF-8\"?>\n<office:document-content xmlns:office=\"urn:oasis:names:tc:opendocument:xmlns:office:1.0\"\n  xmlns:text=\"urn:oasis:names:tc:opendocument:xmlns:text:1.0\"\n  xmlns:style=\"urn:oasis:names:tc:opendocument:xmlns:style:1.0\"\n  xmlns:table=\"urn:oasis:names:tc:opendocument:xmlns:table:1.0\"\n  xmlns:fo=\"urn:oasis:names:tc:opendocument:xmlns:xsl-fo-compatible:1.0\"\n  xmlns:svg=\"urn:oasis:names:tc:opendocument:xmlns:svg-compatible:1.0\"\n  office:version=\"1.4\">\n\n  " ++ fontFaceDecls ++ "\n\n  <office:automatic-styles>\n\n    " ++ pageLayout ++ "\n\n    <!-- ✅✅ 여기에 자동 텍스트 스타일(T_Gungsuh)을 넣어야 함 -->\n    <style:style style:name=\"T_Gungsuh\" style:family=\"text\">\n      <style:text-properties style:font-name=\"GungsuhFont\"/>\n    </style:style>\n\n    <!-- 기존 생성된 자동 스타일들 -->\n    " ++ automaticStylesInner ++ "\n\n  </office:automatic-styles>\n\n  <office:body>\n    <office:text>\n      " ++ contentInnerXml ++ "\n    </office:text>\n  </office:body>\n\n</office:document-content>"

/-- The `odfStylesXml` template (fully static). -/
def odfStylesXml : String :=
  "<?xml version=\"1.0\" encoding=\"UTF-8\"?>\n<office:document-styles \n  xmlns:office=\"urn:oasis:names:tc:opendocument:xmlns:office:1.0\"\n  xmlns:style=\"urn:oasis:names:tc:opendocument:xmlns:style:1.0\"\n  xmlns:text=\"urn:oasis:names:tc:opendocument:xmlns:text:1.0\"\n  xmlns:fo=\"urn:oasis:names:tc:opendocument:xmlns:xsl-fo-compatible:1.0\"\n  xmlns:svg=\"urn:oasis:names:tc:opendocument:xmlns:svg-compatible:1.0\"\n  office:version=\"1.4\">\n\n  <office:styles>\n    <style:default-style style:family=\"paragraph\">\n      <style:paragraph-properties \n        fo:margin-top=\"0cm\" \n        fo:margin-bottom=\"0cm\"\n        fo:line-height=\"140%\" \n        fo:text-indent=\"0cm\"\n      />\n      <style:text-properties \n        style:font-name=\"BodyFont\" \n        fo:font-size=\"12pt\"\n      />\n    </style:default-style>\n\n    <style:default-style style:family=\"text\">\n      <style:text-properties \n        style:font-name=\"BodyFont\" \n        fo:font-size=\"12pt\"\n      />\n    </style:default-style>\n  </office:styles>\n\n</office:document-styles>"

/-- The `odfMetaXml` template.  The `new Date().toISOString()` clock read
is passed in as the `now` parameter. -/
def odfMetaXml (title : Option String) (creator : Option String) (now : String) : String :=
  "<?xml version=\"1.0\" encoding=\"UTF-8\"?>\n<office:document-meta \n  xmlns:office=\"urn:oasis:names:tc:opendocument:xmlns:office:1.0\"\n  xmlns:dc=\"http://purl.org/dc/elements/1.1/\"\n  xmlns:meta=\"urn:oasis:names:tc:opendocument:xmlns:meta:1.0\"\n  office:version=\"1.4\">\n\n  <office:meta>\n    "
    ++ (match title with
        | some t => if t ≠ "" then "<dc:title>" ++ escapeXml t ++ "</dc:title>" else ""
        | none => "")
    ++ "\n    "
    ++ (match creator with
        | some c => if c ≠ "" then "<dc:creator>" ++ escapeXml c ++ "</dc:creator>" else ""
        | none => "")
    ++ "\n    <meta:creation-date>" ++ now ++ "</meta:creation-date>\n  </office:meta>\n\n</office:document-meta>"

/-- The `odfSettingsXml` template (fully static). -/
def odfSettingsXml : String :=
  "<?xml version=\"1.0\" encoding=\"UTF-8\"?>\n<office:document-settings \n  xmlns:office=\"urn:oasis:names:tc:opendocument:xmlns:office:1.0\"\n  xmlns:config=\"urn:oasis:names:tc:opendocument:xmlns:config:1.0\"\n  office:version=\"1.4\">\n\n  <office:settings>\n    <config:config-item-set config:name=\"ooo:view-settings\">\n      <config:config-item config:name=\"ZoomType\" config:type=\"short\">0</config:config-item>\n    </config:config-item-set>\n  </office:settings>\n\n</office:document-settings>"

/-- The string carried by each `fontFamily` member (used by the template
interpolation in `keyForSpan`). -/
def FontFamily.str : FontFamily → String
  | FontFamily.body => "body"
  | FontFamily.serif => "serif"
  | FontFamily.gungsuh => "gungsuh"

/-- The `odfManifestXml` template (fully static). -/
def odfManifestXml : String :=
  "<?xml version=\"1.0\" encoding=\"UTF-8\"?>\n<manifest:manifest \n  xmlns:manifest=\"urn:oasis:names:tc:opendocument:xmlns:manifest:1.0\" \n  manifest:version=\"1.2\">\n\n  <manifest:file-entry \n    manifest:media-type=\"application/vnd.oasis.opendocument.text\" \n    manifest:full-path=\"/\" \n  />\n  <manifest:file-entry manifest:media-type=\"text/xml\" manifest:full-path=\"content.xml\"/>\n  <manifest:file-entry manifest:media-type=\"text/xml\" manifest:full-path=\"styles.xml\"/>\n  <manifest:file-entry manifest:media-type=\"text/xml\" manifest:full-path=\"meta.xml\"/>\n  <manifest:file-entry manifest:media-type=\"text/xml\" manifest:full-path=\"settings.xml\"/>\n</manifest:manifest>"

/-! ## Content builder and style registry (odtBuilder.ts) -/

/-- The builder-side `ParagraphStyleProps` (fields assigned in this order
when present). -/
structure ParagraphStyleProps where
  align : Option ParagraphAlign := none
  lineHeight : Option String := none
  marginTop : Option String := none
  marginBottom : Option String := none
  marginLeft : Option String := none
  marginRight : Option String := none
  textIndent : Option String := none
deriving DecidableEq

/-- JSON string escaping as performed by `JSON.stringify`. -/
def jsonEscapeChar (c : Char) : List Char :=
  if c = '"' then ['\\', '"']
  else if c = '\\' then ['\\', '\\']
  else if c = '\n' then ['\\', 'n']
  else if c = '\t' then ['\\', 't']
  else if c = '\r' then ['\\', 'r']
  else if c.toNat = 8 then ['\\', 'b']
  else if c.toNat = 12 then ['\\', 'f']
  else if c.toNat < 32 then '\\' :: 'u' :: (padZeros (natToHex c.toNat) 4).data
  else [c]

/-- A JSON string literal. -/
def jsonString (s : String) : String :=
  "\"" ++ ⟨s.data.flatMap jsonEscapeChar⟩ ++ "\""

/-- The interning key `JSON.stringify(props)`: properties in assignment
order, absent fields omitted. -/
def paragraphPropsKey (props : ParagraphStyleProps) : String :=
  let fields : List (String × String) :=
    (match props.align with
     | some a => [("align", a.str)]
     | none => []) ++
    (match props.lineHeight with
     | some v => [("lineHeight", v)]
     | none => []) ++
    (match props.marginTop with
     | some v => [("marginTop", v)]
     | none => []) ++
    (match props.marginBottom with
     | some v => [("marginBottom", v)]
     | none => []) ++
    (match props.marginLeft with
     | some v => [("marginLeft", v)]
     | none => []) ++
    (match props.marginRight with
     | some v => [("marginRight", v)]
     | none => []) ++
    (match props.textIndent with
     | some v => [("textIndent", v)]
     | none => [])
  "\x7b" ++ String.intercalate "," (fields.map fun kv => jsonString kv.1 ++ ":" ++ jsonString kv.2) ++ "\x7d"

structure SpanStyleEntry where
  key : String
  name : String
  span : TextSpan
deriving DecidableEq

structure TableStyleEntry where
  key : String
  name : String
  widthAttr : Option String := none
  relWidthAttr : Option String := none
deriving DecidableEq

structure ParagraphStyleEntry where
  key : String
  name : String
  props : ParagraphStyleProps
deriving DecidableEq

structure TableCellStyleEntry where
  key : String
  name : String
  backgroundColor : String
deriving DecidableEq

/-- The `StyleRegistry` class: five insertion-ordered interning maps,
modelled as association lists in insertion order. -/
structure StyleRegistry where
  spanStyles : List SpanStyleEntry := []
  tableColumnStyles : List (String × String) := []
  tableStyles : List TableStyleEntry := []
  paragraphStyles : List ParagraphStyleEntry := []
  tableCellStyles : List TableCellStyleEntry := []
deriving DecidableEq

/-- The registry's `keyForSpan`: the canonical `|`-joined serialization of
the tracked span properties. -/
def keyForSpan (span : TextSpan) : String :=
  String.intercalate "|" [
    (match span.fontFamily with
     | some ff => "ff:" ++ ff.str
     | none => "ff:"),
    (if truthyB span.bold then "b1" else "b0"),
    (if truthyB span.italic then "i1" else "i0"),
    (if truthyB span.underline then "u1" else "u0"),
    (match span.color with
     | some c => if c ≠ "" then "c:" ++ c else "c:"
     | none => "c:"),
    (match span.fontSize with
     | some f => if f ≠ "" then "f:" ++ f else "f:"
     | none => "f:")]

/-- The truthiness test `span.bold || span.italic || span.underline ||
span.color || span.fontSize` guarding span-style interning. -/
def hasFormatting (span : TextSpan) : Bool :=
  truthyB span.bold || truthyB span.italic || truthyB span.underline ||
  truthyS span.color || truthyS span.fontSize

/-- The registry's `getSpanStyle`, with the registry threaded explicitly. -/
def getSpanStyle (span : TextSpan) (reg : StyleRegistry) : Option String × StyleRegistry :=
  if span.fontFamily.isSome then (none, reg)
  else if !hasFormatting span then (none, reg)
  else
    let key := keyForSpan span
    match reg.spanStyles.find? (fun e => e.key = key) with
    | some exist => (some exist.name, reg)
    | none =>
      let name := "T" ++ Nat.repr (reg.spanStyles.length + 1)
      (some name, { reg with spanStyles := reg.spanStyles ++ [⟨key, name, span⟩] })

/-- The registry's `getParagraphStyle`. -/
def getParagraphStyle (p : Paragraph) (reg : StyleRegistry) : Option String × StyleRegistry :=
  let props : ParagraphStyleProps := {
    align := match p.align with
             | some a => if a ≠ ParagraphAlign.start then some a else none
             | none => none,
    lineHeight := if truthyS p.lineHeight then p.lineHeight else none,
    marginTop := if truthyS p.marginTop then p.marginTop else none,
    marginBottom := if truthyS p.marginBottom then p.marginBottom else none,
    marginLeft := if truthyS p.marginLeft then p.marginLeft else none,
    marginRight := if truthyS p.marginRight then p.marginRight else none,
    textIndent := if truthyS p.textIndent then p.textIndent else none }
  let hasProps := props.align.isSome || props.lineHeight.isSome || props.marginTop.isSome ||
    props.marginBottom.isSome || props.marginLeft.isSome || props.marginRight.isSome ||
    props.textIndent.isSome
  if !hasProps then (none, reg)
  else
    let key := paragraphPropsKey props
    match reg.paragraphStyles.find? (fun e => e.key = key) with
    | some exist => (some exist.name, reg)
    | none =>
      let name := "PStyle" ++ Nat.repr (reg.paragraphStyles.length + 1)
      (some name, { reg with paragraphStyles := reg.paragraphStyles ++ [⟨key, name, props⟩] })

/-- The registry's `getTableColumnStyle`. -/
def getTableColumnStyle (width : Option String) (reg : StyleRegistry) :
    Option String × StyleRegistry :=
  match width.map jsTrim with
  | none => (none, reg)
  | some w =>
    if w = "" then (none, reg)
    else
      match reg.tableColumnStyles.find? (fun e => e.1 = w) with
      | some exist => (some exist.2, reg)
      | none =>
        let styleName := "TableColumnCustom" ++ Nat.repr (reg.tableColumnStyles.length + 1)
        (some styleName, { reg with tableColumnStyles := reg.tableColumnStyles ++ [(w, styleName)] })

/-- The regex `/^([\d.]+)\s*cm$/i`, returning the capture group. -/
def cmSuffixMatch (s : String) : Option String :=
  let cs := s.data
  let digits := cs.takeWhile fun c => c.isDigit || c = '.'
  let rest := (cs.drop digits.length).dropWhile Char.isWhitespace
  if !digits.isEmpty && rest.map Char.toLower = ['c', 'm'] then some ⟨digits⟩ else none

/-- The registry's private `lengthStringToCm`. -/
def lengthStringToCm (v : Option String) : Option ℚ :=
  match v with
  | none => none
  | some s =>
    if s = "" then none
    else
      match cmSuffixMatch s with
      | none => none
      | some numStr =>
        match parseFloat numStr with
        | JsNum.num n => if 0 < n then some n else none
        | _ => none

/-- The registry's private `computeAbsoluteWidth`. -/
def computeAbsoluteWidth (widths : Option (List (Option String))) : Option String :=
  match widths with
  | none => none
  | some ws =>
    if ws.isEmpty then none
    else
      let nums := ws.filterMap lengthStringToCm
      if nums.isEmpty then none
      else some (ratToFixed (nums.foldl (fun a b => a + b) 0) 4 ++ "cm")

/-- The registry's `getTableStyle` (always returns a name). -/
def getTableStyle (widthPct : Option ℚ) (widths : Option (List (Option String)))
    (explicitWidthCm : Option String) (reg : StyleRegistry) : String × StyleRegistry :=
  let absolute :=
    match explicitWidthCm with
    | some w => some w
    | none => computeAbsoluteWidth widths
  let (key, widthAttr, rel) : String × Option String × Option String :=
    match absolute with
    | some a => ("abs:" ++ a, some a, none)
    | none =>
      match widthPct with
      | some pct =>
        if pct ≠ 0 then
          let clamped := max 1 (min pct 1000)
          let r := ratToFixed clamped 2 ++ "%"
          ("rel:" ++ r, none, some r)
        else ("abs:17cm", some "17cm", none)
      | none => ("abs:17cm", some "17cm", none)
  match reg.tableStyles.find? (fun e => e.key = key) with
  | some exist => (exist.name, reg)
  | none =>
    let name := "TableCustom" ++ Nat.repr (reg.tableStyles.length + 1)
    (name, { reg with tableStyles := reg.tableStyles ++ [⟨key, name, widthAttr, rel⟩] })

/-- The registry's `getTableCellStyle`. -/
def getTableCellStyle (bg : Option String) (reg : StyleRegistry) :
    Option String × StyleRegistry :=
  match bg.map jsTrim with
  | none => (none, reg)
  | some b =>
    if b = "" then (none, reg)
    else
      match reg.tableCellStyles.find? (fun e => e.key = b) with
      | some exist => (some exist.name, reg)
      | none =>
        let name := "TableCellCustom" ++ Nat.repr (reg.tableCellStyles.length + 1)
        (some name, { reg with tableCellStyles := reg.tableCellStyles ++ [⟨b, name, b⟩] })

/-- The builder's `mergeSpanProps`.  On the typed model the `attributes`
escape hatch `(span as any).attributes` is always absent, so each
attribute read yields `undefined`: `bold`/`italic` coalesce to `false`,
the other fields are left unchanged. -/
def mergeSpanProps (span : TextSpan) : TextSpan :=
  { span with
    bold := some (span.bold.getD false),
    italic := some (span.italic.getD false),
    underline := span.underline,
    fontSize := span.fontSize,
    color := span.color,
    fontFamily := span.fontFamily }

/-- The split `text.split(/(\n)/)`: segments with the newline separators
kept as their own tokens. -/
def splitKeepNewlines (s : String) : List String :=
  match jsSplitChar s '\n' with
  | [] => []
  | x :: xs => x :: xs.flatMap fun seg => ["\n", seg]

/-- The builder's `renderParagraph`, with the registry threaded. -/
def renderParagraph (p : Paragraph) (styles : StyleRegistry) : String × StyleRegistry :=
  let (pStyleName, styles) := getParagraphStyle p styles
  let styleAttr :=
    match pStyleName with
    | some n => " text:style-name=\"" ++ n ++ "\""
    | none => ""
  if p.spans.isEmpty then ("<text:p" ++ styleAttr ++ "/>", styles)
  else
    let (fragments, styles) := p.spans.foldl
      (fun (acc : List String × StyleRegistry) span =>
        let (fragments, styles) := acc
        let merged := mergeSpanProps span
        let familyStyle := merged.fontFamily.map FONT_FAMILY_MAP
        let (spanStyleName, styles) :=
          match familyStyle with
          | some n => (some n, styles)
          | none => getSpanStyle merged styles
        let spanAttr :=
          match spanStyleName with
          | some n => " text:style-name=\"" ++ n ++ "\""
          | none => ""
        let fragments := (splitKeepNewlines merged.text).foldl
          (fun fragments token =>
            if token = "\n" then fragments ++ ["<text:line-break/>"]
            else if token = "" then fragments
            else fragments ++
              ["<text:span" ++ spanAttr ++ ">" ++ escapeXml token ++ "</text:span>"])
          fragments
        (fragments, styles))
      ([], styles)
    ("<text:p" ++ styleAttr ++ ">" ++ String.join fragments ++ "</text:p>", styles)

/-- The `colsCount` computation in `renderTable`:
`t.rows.length ? Math.max(...t.rows.map(r => r.cells.length)) : 0`. -/
def tableColsCount (t : Table) : ℕ :=
  if t.rows.isEmpty then 0
  else (t.rows.map fun r => r.cells.length).foldl max 0

/-- The column-element construction in `renderTable`: one
`<table:table-column>` string per index below `colsCount`, threading the
registry through `getTableColumnStyle`. -/
def renderTableColumns (t : Table) (styles : StyleRegistry) :
    List String × StyleRegistry :=
  (List.range (tableColsCount t)).foldl
    (fun (acc : List String × StyleRegistry) index =>
      let (cols, styles) := acc
      let width : Option String :=
        match t.columnWidths with
        | some ws => ws.getD index none
        | none => none
      let (styleName, styles) := getTableColumnStyle width styles
      let attr :=
        match styleName with
        | some n => " table:style-name=\"" ++ n ++ "\""
        | none => " table:style-name=\"TableColumn\""
      (cols ++ ["<table:table-column" ++ attr ++ "/>"], styles))
    ([], styles)

/-- The builder's `renderTable`, with the registry threaded. -/
def renderTable (t : Table) (styles : StyleRegistry) : String × StyleRegistry :=
  let (tableStyle, styles) := getTableStyle t.widthPct t.columnWidths t.widthCm styles
  let (cols, styles) := renderTableColumns t styles
  let (rows, styles) := t.rows.foldl
    (fun (acc : List String × StyleRegistry) r =>
      let (rows, styles) := acc
      let (cells, styles) := r.cells.foldl
        (fun (acc2 : List String × StyleRegistry) c =>
          let (cells, styles) := acc2
          let (ps, styles) := c.paragraphs.foldl
            (fun (acc3 : String × StyleRegistry) p =>
              let (s, styles) := acc3
              let (x, styles) := renderParagraph p styles
              (s ++ x, styles))
            ("", styles)
          let spanAttr :=
            (match c.colSpan with
             | some n => if n ≠ 0 then " table:number-columns-spanned=\"" ++ Nat.repr n ++ "\"" else ""
             | none => "") ++
            (match c.rowSpan with
             | some n => if n ≠ 0 then " table:number-rows-spanned=\"" ++ Nat.repr n ++ "\"" else ""
             | none => "")
          let (cellStyleOpt, styles) := getTableCellStyle c.backgroundColor styles
          let cellStyle := cellStyleOpt.getD "TableCell"
          let inner := if ps = "" then "<text:p/>" else ps
          (cells ++
            ["<table:table-cell table:style-name=\"" ++ cellStyle ++ "\"" ++ spanAttr ++ ">" ++
              inner ++ "</table:table-cell>"], styles))
        ([], styles)
      (rows ++
        ["<table:table-row table:style-name=\"TableRow\">" ++ String.join cells ++
          "</table:table-row>"], styles))
    ([], styles)
  ("<table:table table:style-name=\"" ++ tableStyle ++ "\">" ++ String.join cols ++
    String.join rows ++ "</table:table>", styles)

/-- The builder's `renderBlock`. -/
def renderBlock (b : OdtBlock) (styles : StyleRegistry) : String × StyleRegistry :=
  match b with
  | OdtBlock.paragraph p => renderParagraph p styles
  | OdtBlock.table t => renderTable t styles

/-- The registry's `renderAutomaticStyles`: the static base styles
followed by the interned table, column, cell, paragraph and span styles in
insertion order. -/
def renderAutomaticStyles (reg : StyleRegistry) : String :=
  let base := "\n    <style:style style:name=\"P\" style:family=\"paragraph\">\n      <style:paragraph-properties fo:margin-top=\"0cm\" fo:margin-bottom=\"0.42cm\" fo:line-height=\"160%\"/>\n      <style:text-properties style:font-name=\"BodyFont\" fo:font-size=\"12pt\"/>\n    </style:style>\n\n    <style:style style:name=\"T\" style:family=\"text\">\n      <style:text-properties style:font-name=\"BodyFont\" fo:font-size=\"12pt\"/>\n    </style:style>\n\n    <style:style style:name=\"Table\" style:family=\"table\">\n      <style:table-properties table:align=\"left\" table:border-model=\"collapsing\"/>\n    </style:style>\n\n    <style:style style:name=\"TableColumn\" style:family=\"table-column\">\n      <style:table-column-properties/>\n    </style:style>\n\n    <style:style style:name=\"TableRow\" style:family=\"table-row\">\n      <style:table-row-properties/>\n    </style:style>\n\n    <style:style style:name=\"TableCell\" style:family=\"table-cell\">\n      <style:table-cell-properties fo:border=\"0.75pt solid #c5ccd6\" fo:padding=\"0.20cm\"/>\n    </style:style>"
  let table := String.join (reg.tableStyles.map fun s =>
    let props := ["table:align=\"left\"", "table:border-model=\"collapsing\""] ++
      (match s.widthAttr with
       | some w => ["style:width=\"" ++ w ++ "\""]
       | none => []) ++
      (match s.relWidthAttr with
       | some w => ["style:rel-width=\"" ++ w ++ "\""]
       | none => [])
    "\n      <style:style style:name=\"" ++ s.name ++ "\" style:family=\"table\">\n        <style:table-properties " ++ String.intercalate " " props ++ "/>\n      </style:style>")
  let col := String.join (reg.tableColumnStyles.map fun wn =>
    "\n      <style:style style:name=\"" ++ wn.2 ++ "\" style:family=\"table-column\">\n        <style:table-column-properties style:column-width=\"" ++ wn.1 ++ "\"/>\n      </style:style>")
  let cell := String.join (reg.tableCellStyles.map fun c =>
    "\n      <style:style style:name=\"" ++ c.name ++ "\" style:family=\"table-cell\">\n        <style:table-cell-properties fo:border=\"0.75pt solid #c5ccd6\" fo:padding=\"0.20cm\" fo:background-color=\"" ++ c.backgroundColor ++ "\"/>\n      </style:style>")
  let span := String.join (reg.spanStyles.map fun s =>
    let p := ["style:font-name=\"BodyFont\""] ++
      (if truthyB s.span.bold then ["fo:font-weight=\"bold\""] else []) ++
      (if truthyB s.span.italic then ["fo:font-style=\"italic\""] else []) ++
      (if truthyB s.span.underline then
        ["style:text-underline-style=\"solid\"", "style:text-underline-type=\"single\""]
       else []) ++
      (match s.span.color with
       | some c => if c ≠ "" then ["fo:color=\"" ++ c ++ "\""] else []
       | none => []) ++
      (match s.span.fontSize with
       | some f => if f ≠ "" then ["fo:font-size=\"" ++ f ++ "\""] else []
       | none => [])
    "\n      <style:style style:name=\"" ++ s.name ++ "\" style:family=\"text\">\n        <style:text-properties " ++ String.intercalate " " p ++ " />\n      </style:style>")
  let para := String.join (reg.paragraphStyles.map fun s =>
    let props := s.props
    let p :=
      (match props.align with
       | some a => ["fo:text-align=\"" ++ a.str ++ "\""]
       | none => []) ++
      (match props.lineHeight with
       | some v => ["fo:line-height=\"" ++ v ++ "\""]
       | none => []) ++
      (match props.marginTop with
       | some v => ["fo:margin-top=\"" ++ v ++ "\""]
       | none => []) ++
      (match props.marginBottom with
       | some v => ["fo:margin-bottom=\"" ++ v ++ "\""]
       | none => []) ++
      (match props.marginLeft with
       | some v => ["fo:margin-left=\"" ++ v ++ "\""]
       | none => []) ++
      (match props.marginRight with
       | some v => ["fo:margin-right=\"" ++ v ++ "\""]
       | none => []) ++
      (match props.textIndent with
       | some v => ["fo:text-indent=\"" ++ v ++ "\""]
       | none => [])
    "\n      <style:style style:name=\"" ++ s.name ++ "\" style:family=\"paragraph\">\n        <style:paragraph-properties " ++ String.intercalate " " p ++ "/>\n      </style:style>")
  base ++ table ++ col ++ cell ++ para ++ span

/-- The builder's `buildContentXml`: a fresh registry, all blocks rendered
in order, then the accumulated automatic styles. -/
def buildContentXml (doc : OdtDoc) : String :=
  let (blocks, styles) := doc.body.foldl
    (fun (acc : List String × StyleRegistry) block =>
      let (bs, styles) := acc
      let (s, styles) := renderBlock block styles
      (bs ++ [s], styles))
    ([], {})
  odfDocumentContent (String.intercalate "\n" blocks) (renderAutomaticStyles styles)

/-! ## ODT packaging (zipOdt.ts) -/

inductive ZipCompression where
  | STORE
  | DEFLATE
deriving DecidableEq

/-- One entry handed to the ZIP collaborator: name, content, and the
optional per-entry compression override. -/
structure ZipEntry where
  name : String
  content : String
  compression : Option ZipCompression := none
deriving DecidableEq

/-- Model of the external JSZip collaborator per the specification's
black-box interface: `generateAsync` resolves each entry's compression to
its per-entry override when present, otherwise to the archive-level
default; entries appear in the order they were added, and
`folder("META-INF").file("manifest.xml", ...)` contributes the entry
`META-INF/manifest.xml`. -/
def generateAsync (entries : List ZipEntry) (defaultCompression : ZipCompression) :
    List (String × String × ZipCompression) :=
  entries.map fun e => (e.name, e.content, e.compression.getD defaultCompression)

/-- The packager's `makeAndDownloadOdt`, returning the produced archive
entry list (the `new Date()` clock read inside `odfMetaXml` is passed in
as `now`; the browser download trigger is outside the model). -/
def makeAndDownloadOdt (doc : OdtDoc) (now : String) :
    List (String × String × ZipCompression) :=
  let entries : List ZipEntry := [
    { name := "mimetype", content := "application/vnd.oasis.opendocument.text",
      compression := some ZipCompression.STORE },
    { name := "content.xml", content := buildContentXml doc },
    { name := "styles.xml", content := odfStylesXml },
    { name := "meta.xml", content := odfMetaXml doc.meta.title doc.meta.creator now },
    { name := "settings.xml", content := odfSettingsXml },
    { name := "META-INF/manifest.xml", content := odfManifestXml }]
  generateAsync entries ZipCompression.DEFLATE

/-! ## JSON to HTML converter (odtJsonToHtml.ts) -/

/-- The `styleApplication` payload of an `OdtNode`. -/
structure StyleApplication where
  resolvedProperties : Option (List (String × List (String × String))) := none

/-- Import-side node tree.  `children` is modelled as a plain list: the
source reads it only through `node.children ?? []`, under which an absent
list and an empty list are indistinguishable. -/
inductive OdtNode where
  | mk (nodeType : String) (name : String) (attributes : List (String × String))
      (textContent : Option String) (children : List OdtNode)
      (styleApplication : Option StyleApplication)

def OdtNode.nodeType : OdtNode → String
  | mk nodeType _ _ _ _ _ => nodeType

def OdtNode.name : OdtNode → String
  | mk _ name _ _ _ _ => name

def OdtNode.attributes : OdtNode → List (String × String)
  | mk _ _ attributes _ _ _ => attributes

def OdtNode.textContent : OdtNode → Option String
  | mk _ _ _ textContent _ _ => textContent

def OdtNode.children : OdtNode → List OdtNode
  | mk _ _ _ _ children _ => children

def OdtNode.styleApplication : OdtNode → Option StyleApplication
  | mk _ _ _ _ _ styleApplication => styleApplication

/-- The import document wrapper: `content?: OdtNode | null`. -/
structure OdtJsonDocument where
  content : Option OdtNode := none

/-- JavaScript `Number.prototype.toString` for the finite values reached
here (decimal expansion, 20 fractional digits of fuel — every value that
reaches this printer has a finite decimal expansion). -/
def ratFracDigits : ℚ → ℕ → List Char
  | _, 0 => []
  | q, n + 1 =>
    if q = 0 then []
    else
      let scaled := q * 10
      let d := ⌊scaled⌋
      Char.ofNat (48 + d.toNat) :: ratFracDigits (scaled - d) n

/-- Decimal rendering of a rational (see `ratFracDigits`). -/
def ratToString (q : ℚ) : String :=
  let sign := if q < 0 then "-" else ""
  let a := if q < 0 then -q else q
  let ip := (⌊a⌋).toNat
  let frac := a - (ip : ℚ)
  if frac = 0 then sign ++ Nat.repr ip
  else sign ++ Nat.repr ip ++ "." ++ ⟨ratFracDigits frac 20⟩

/-- The import converter's `escapeHtml` (note the numeric entity for the
apostrophe, unlike the export-side `escapeXml`). -/
def escapeHtml (text : String) : String :=
  ⟨replaceChar '\'' ("&#39;").data
    (replaceChar '"' ("&quot;").data
      (replaceChar '>' ("&gt;").data
        (replaceChar '<' ("&lt;").data
          (replaceChar '&' ("&amp;").data text.data))))⟩

/-- The import converter's `escapeHtmlAttr`: `escapeHtml` plus the
backquote (character 96). -/
def escapeHtmlAttr (text : String) : String :=
  ⟨replaceChar (Char.ofNat 96) ("&#96;").data (escapeHtml text).data⟩

/-- The import converter's `getResolvedProperties`: empty map when the
style application or the keyed family is missing; entries with empty
values are dropped. -/
def getResolvedProperties (node : OdtNode) (key : String) : List (String × String) :=
  match node.styleApplication with
  | none => []
  | some sa =>
    match sa.resolvedProperties with
    | none => []
    | some rp =>
      match rp.find? (fun e => e.1 = key) with
      | none => []
      | some entry =>
        entry.2.foldl
          (fun result kv => if kv.2 ≠ "" then objSet result kv.1 kv.2 else result) []

/-- The import converter's `copyIfPresent` (the source property
participates only when truthy). -/
def copyIfPresent (source : List (String × String)) (target : List (String × String))
    (from_ to_ : String) : List (String × String) :=
  match objGet source from_ with
  | some v => if v ≠ "" then objSet target to_ v else target
  | none => target

/-- The import converter's `combineStyles`: later maps override earlier
ones, empty values dropped. -/
def combineStyles (styles : List (List (String × String))) : List (String × String) :=
  styles.foldl
    (fun result style =>
      style.foldl (fun result kv => if kv.2 ≠ "" then objSet result kv.1 kv.2 else result) result)
    []

/-- The import converter's `sanitizeCssValue`: double quotes become
apostrophes inside a `style` attribute. -/
def sanitizeCssValue (value : String) : String :=
  ⟨replaceChar '"' ['\''] value.data⟩

/-- The import converter's `styleMapToAttr`. -/
def styleMapToAttr (style : List (String × String)) : String :=
  let entries := style.filter fun kv => kv.2 ≠ ""
  if entries.isEmpty then ""
  else
    " style=\"" ++
      String.intercalate "; " (entries.map fun kv => kv.1 ++ ": " ++ sanitizeCssValue kv.2) ++
      "\""

/-- The import converter's `normalizeOpacity`. -/
def normalizeOpacity (value : String) : Option String :=
  let trimmed := jsTrim value
  if jsEndsWith trimmed ("%") then
    match parseFloat (jsDropRight trimmed 1) with
    | JsNum.nan => none
    | JsNum.num q => some (ratToString (max (min q 100) 0 / 100))
    | JsNum.inf => some (ratToString 1)
    | JsNum.negInf => some (ratToString 0)
  else
    match parseFloat trimmed with
    | JsNum.nan => none
    | JsNum.num q =>
      if 0 ≤ q ∧ q ≤ 1 then some (ratToString q)
      else if 1 < q ∧ q ≤ 100 then some (ratToString (q / 100))
      else none
    | JsNum.inf => none
    | JsNum.negInf => none

def mapParagraphProperties (source : List (String × String)) : List (String × String) :=
  let mapped : List (String × String) := []
  let mapped := copyIfPresent source mapped ("fo:text-align") ("text-align")
  let mapped := copyIfPresent source mapped ("fo:margin-left") ("margin-left")
  let mapped := copyIfPresent source mapped ("fo:margin-right") ("margin-right")
  let mapped := copyIfPresent source mapped ("fo:margin-top") ("margin-top")
  let mapped := copyIfPresent source mapped ("fo:margin-bottom") ("margin-bottom")
  let mapped := copyIfPresent source mapped ("fo:text-indent") ("text-indent")
  let mapped := copyIfPresent source mapped ("fo:line-height") ("line-height")
  let mapped := copyIfPresent source mapped ("fo:padding") ("padding")
  let mapped := copyIfPresent source mapped ("fo:padding-left") ("padding-left")
  let mapped := copyIfPresent source mapped ("fo:padding-right") ("padding-right")
  let mapped := copyIfPresent source mapped ("fo:padding-top") ("padding-top")
  let mapped := copyIfPresent source mapped ("fo:padding-bottom") ("padding-bottom")
  let mapped := copyIfPresent source mapped ("fo:border") ("border")
  let mapped := copyIfPresent source mapped ("fo:border-left") ("border-left")
  let mapped := copyIfPresent source mapped ("fo:border-right") ("border-right")
  let mapped := copyIfPresent source mapped ("fo:border-top") ("border-top")
  let mapped := copyIfPresent source mapped ("fo:border-bottom") ("border-bottom")
  let mapped := copyIfPresent source mapped ("fo:background-color") ("background-color")
  let mapped := copyIfPresent source mapped ("style:writing-mode") ("writing-mode")
  let mapped := copyIfPresent source mapped ("style:vertical-align") ("vertical-align")
  mapped

def mapTextProperties (source : List (String × String)) : List (String × String) :=
  let mapped : List (String × String) := []
  let mapped := copyIfPresent source mapped ("fo:font-weight") ("font-weight")
  let mapped := copyIfPresent source mapped ("fo:font-style") ("font-style")
  let mapped := copyIfPresent source mapped ("fo:font-size") ("font-size")
  let mapped :=
    if !truthyS (objGet mapped ("font-size")) then
      copyIfPresent source mapped ("style:font-size-asian") ("font-size")
    else mapped
  let mapped := copyIfPresent source mapped ("fo:color") ("color")
  let mapped := copyIfPresent source mapped ("fo:letter-spacing") ("letter-spacing")
  let mapped := copyIfPresent source mapped ("fo:text-transform") ("text-transform")
  let mapped := copyIfPresent source mapped ("fo:background-color") ("background-color")
  let mapped := copyIfPresent source mapped ("style:text-outline") ("text-outline")
  let mapped :=
    match objGet source ("loext:opacity") with
    | some opacity =>
      if opacity ≠ "" then
        match normalizeOpacity opacity with
        | some normalized => objSet mapped ("opacity") normalized
        | none => mapped
      else mapped
    | none => mapped
  let families := ([objGet source ("style:font-name"), objGet source ("style:font-name-asian"),
    objGet source ("style:font-name-complex")].filterMap id).filter fun s => s ≠ ""
  let mapped :=
    match families with
    | f :: _ => objSet mapped ("font-family") f
    | [] => mapped
  let decorations :=
    (match objGet source ("style:text-underline-style") with
     | some u => if u ≠ "" && jsToLower u ≠ "none" then ["underline"] else []
     | none => []) ++
    (match objGet source ("style:text-line-through-style") with
     | some u => if u ≠ "" && jsToLower u ≠ "none" then ["line-through"] else []
     | none => []) ++
    (match objGet source ("style:text-overline-style") with
     | some u => if u ≠ "" && jsToLower u ≠ "none" then ["overline"] else []
     | none => [])
  let mapped :=
    if !decorations.isEmpty then
      objSet mapped ("text-decoration-line") (String.intercalate " " decorations)
    else mapped
  let mapped :=
    match objGet source ("style:text-underline-color") with
    | some c =>
      if c ≠ "" && jsToLower c ≠ "font-color" then objSet mapped ("text-decoration-color") c
      else mapped
    | none => mapped
  let mapped :=
    match objGet source ("style:text-underline-width") with
    | some w => if w ≠ "" then objSet mapped ("text-decoration-thickness") w else mapped
    | none => mapped
  let mapped :=
    match objGet source ("style:text-position") with
    | some tp =>
      if tp ≠ "" then
        let lowered := jsToLower tp
        if jsIncludes lowered ("super") then objSet mapped ("vertical-align") ("super")
        else if jsIncludes lowered ("sub") then objSet mapped ("vertical-align") ("sub")
        else mapped
      else mapped
    | none => mapped
  mapped

def mapTableProperties (source : List (String × String)) : List (String × String) :=
  let mapped : List (String × String) := []
  let mapped := copyIfPresent source mapped ("style:width") ("width")
  let mapped := copyIfPresent source mapped ("fo:margin-left") ("margin-left")
  let mapped := copyIfPresent source mapped ("fo:margin-right") ("margin-right")
  let mapped := copyIfPresent source mapped ("fo:margin-top") ("margin-top")
  let mapped := copyIfPresent source mapped ("fo:margin-bottom") ("margin-bottom")
  let mapped := copyIfPresent source mapped ("fo:border") ("border")
  let mapped := copyIfPresent source mapped ("fo:border-top") ("border-top")
  let mapped := copyIfPresent source mapped ("fo:border-right") ("border-right")
  let mapped := copyIfPresent source mapped ("fo:border-bottom") ("border-bottom")
  let mapped := copyIfPresent source mapped ("fo:border-left") ("border-left")
  let mapped := copyIfPresent source mapped ("fo:padding") ("padding")
  let mapped :=
    match objGet source ("table:border-model") with
    | some borderModel =>
      if borderModel ≠ "" then
        objSet mapped ("border-collapse")
          (if borderModel = "collapsing" then "collapse" else "separate")
      else mapped
    | none => mapped
  let mapped :=
    match objGet source ("table:align") with
    | some align =>
      if align ≠ "" then
        if align = "center" then
          objSet (objSet mapped ("margin-left") ("auto")) ("margin-right") ("auto")
        else if align = "right" then objSet mapped ("margin-left") ("auto")
        else mapped
      else mapped
    | none => mapped
  mapped

def mapTableColumnProperties (source : List (String × String)) : List (String × String) :=
  copyIfPresent source [] ("style:column-width") ("width")

def mapTableRowProperties (source : List (String × String)) : List (String × String) :=
  let mapped := copyIfPresent source [] ("style:min-row-height") ("min-height")
  match objGet source ("fo:keep-together") with
  | some keepTogether =>
    if keepTogether ≠ "" && jsToLower keepTogether = "always" then
      objSet mapped ("page-break-inside") ("avoid")
    else mapped
  | none => mapped

def mapTableCellProperties (source : List (String × String)) : List (String × String) :=
  let mapped : List (String × String) := []
  let mapped := copyIfPresent source mapped ("fo:border") ("border")
  let mapped := copyIfPresent source mapped ("fo:border-left") ("border-left")
  let mapped := copyIfPresent source mapped ("fo:border-right") ("border-right")
  let mapped := copyIfPresent source mapped ("fo:border-top") ("border-top")
  let mapped := copyIfPresent source mapped ("fo:border-bottom") ("border-bottom")
  let mapped := copyIfPresent source mapped ("fo:padding") ("padding")
  let mapped := copyIfPresent source mapped ("fo:padding-left") ("padding-left")
  let mapped := copyIfPresent source mapped ("fo:padding-right") ("padding-right")
  let mapped := copyIfPresent source mapped ("fo:padding-top") ("padding-top")
  let mapped := copyIfPresent source mapped ("fo:padding-bottom") ("padding-bottom")
  let mapped := copyIfPresent source mapped ("fo:background-color") ("background-color")
  let mapped := copyIfPresent source mapped ("style:vertical-align") ("vertical-align")
  mapped

/-- The import converter's `getSpanAttr`. -/
def getSpanAttr (value : Option String) (name : String) : String :=
  match value with
  | none => ""
  | some v =>
    if v = "" then ""
    else
      match parseIntJs v with
      | none => ""
      | some parsed => if parsed ≤ 1 then "" else " " ++ name ++ "=\"" ++ Int.repr parsed ++ "\""

/-- The import converter's `convertTextSpace`. -/
def convertTextSpace (node : OdtNode) : String :=
  let countRaw := objGet node.attributes ("text:c")
  let count : ℤ :=
    match countRaw with
    | some raw =>
      if raw = "" then 1
      else
        match parseIntJs raw with
        | some n => if n = 0 then 1 else n
        | none => 1
    | none => 1
  String.join (List.replicate (max count 1).toNat "&nbsp;")

/-- The import converter's `convertImage`. -/
def convertImage (node : OdtNode) : String :=
  let href := (objGet node.attributes ("xlink:href")).getD ""
  let mime := objGet node.attributes ("draw:mime-type")
  let attrParts := ["data-odt-src=\"" ++ escapeHtmlAttr href ++ "\""] ++
    (if href ≠ "" then ["src=\"" ++ escapeHtmlAttr href ++ "\""] else []) ++
    (match mime with
     | some m => if m ≠ "" then ["data-odt-mime=\"" ++ escapeHtmlAttr m ++ "\""] else []
     | none => [])
  "<img " ++ String.intercalate " " attrParts ++ " />"

/-- The import converter's `convertTableColumns` (no recursion into
children: columns are rendered flat). -/
def convertTableColumns (columns : List OdtNode) : String :=
  if columns.isEmpty then ""
  else
    let items := String.join (columns.map fun column =>
      let style := combineStyles
        [mapTableColumnProperties (getResolvedProperties column ("style:table-column-properties"))]
      let styleAttr := styleMapToAttr style
      let repeatCount : ℕ :=
        match objGet column.attributes ("table:number-columns-repeated") with
        | some raw =>
          if raw = "" then 1
          else
            match parseIntJs raw with
            | some n => if n = 0 then 1 else max n 1 |>.toNat
            | none => 1
        | none => 1
      String.join (List.replicate repeatCount ("<col" ++ styleAttr ++ " />")))
    "<colgroup>" ++ items ++ "</colgroup>"

/-- Filtering a list never increases its `sizeOf` (used as a termination
measure bound for the table renderer, which walks filtered child lists). -/
theorem sizeOf_filter_le {α : Type} [SizeOf α] (p : α → Bool) (l : List α) :
    sizeOf (l.filter p) ≤ sizeOf l := by
  induction l with
  | nil => simp
  | cons a t ih =>
    simp only [List.filter]
    cases p a <;> simp <;> omega

/-- A node's child list is smaller than the node (termination measure). -/
theorem sizeOf_children_lt (node : OdtNode) : sizeOf node.children < sizeOf node := by
  cases node
  simp [OdtNode.children]
  omega

mutual

/-- The import converter's `isBlockLevelParagraphChild`. -/
def isBlockLevelParagraphChild (node : OdtNode) : Bool :=
  if node.name = "table:table" then true
  else if node.name = "draw:text-box" then true
  else if node.name = "draw:frame" then anyBlockLevelChild node.children
  else false
termination_by 2 * sizeOf node + 1
decreasing_by
  all_goals simp_wf
  all_goals have hc := sizeOf_children_lt node
  all_goals omega

/-- The `children.some(...)` recursion of `isBlockLevelParagraphChild`. -/
def anyBlockLevelChild (l : List OdtNode) : Bool :=
  match l with
  | [] => false
  | c :: rest => isBlockLevelParagraphChild c || anyBlockLevelChild rest
termination_by 2 * sizeOf l
decreasing_by
  all_goals simp_wf
  all_goals omega

end

/-- The paragraph style attribute computed at the top of
`convertParagraph` (merged paragraph + text resolved properties). -/
def paragraphStyleAttr (node : OdtNode) : String :=
  styleMapToAttr (combineStyles
    [mapParagraphProperties (getResolvedProperties node ("style:paragraph-properties")),
     mapTextProperties (getResolvedProperties node ("style:text-properties"))])

/-- The span style attribute computed at the top of `convertSpan`. -/
def spanStyleAttr (node : OdtNode) : String :=
  styleMapToAttr (combineStyles
    [mapTextProperties (getResolvedProperties node ("style:text-properties"))])

/-- The `flushInline` closure of `convertParagraph`: flush the inline
buffer into one paragraph segment. -/
def flushInlineSegs (styleAttr : String) (segments inlineBuffer : List String) :
    List String :=
  if inlineBuffer.isEmpty then segments
  else
    let content := String.join inlineBuffer
    let inner := if content = "" then "<br />" else content
    segments ++ ["<p" ++ styleAttr ++ ">" ++ inner ++ "</p>"]

mutual

/-- The import converter's `nodeToHtml` dispatch. -/
def nodeToHtml (node : OdtNode) : String :=
  if node.nodeType = "TEXT" || node.name = "#text" then
    escapeHtml (node.textContent.getD "")
  else if node.name = "text:p" then convertParagraph node
  else if node.name = "text:span" then convertSpan node
  else if node.name = "text:s" then convertTextSpace node
  else if node.name = "table:table" then convertTable node
  else if node.name = "table:table-header-rows" then convertTableHeaderRows node
  else if node.name = "table:table-row" then convertTableRow node ("td")
  else if node.name = "table:table-cell" then convertTableCell node ("td")
  else if node.name = "table:covered-table-cell" then ""
  else if node.name = "draw:frame" || node.name = "draw:text-box" then
    nodesToHtml node.children
  else if node.name = "draw:image" then convertImage node
  else if node.name = "text:sequence-decls" || node.name = "text:sequence-decl" ||
      node.name = "text:bookmark" || node.name = "text:bookmark-start" ||
      node.name = "text:bookmark-end" then ""
  else nodesToHtml node.children
termination_by 6 * sizeOf node + 5
decreasing_by
  all_goals simp_wf
  all_goals try (have hc := sizeOf_children_lt node)
  all_goals omega

/-- The import converter's `nodesToHtml`. -/
def nodesToHtml (nodes : List OdtNode) : String :=
  if nodes.isEmpty then ""
  else String.join ((nodesToHtmlList nodes).filter fun s => s ≠ "")
termination_by 6 * sizeOf nodes + 1
decreasing_by
  all_goals simp_wf

/-- The `nodes.map(nodeToHtml)` recursion of `nodesToHtml`. -/
def nodesToHtmlList (l : List OdtNode) : List String :=
  match l with
  | [] => []
  | n :: rest => nodeToHtml n :: nodesToHtmlList rest
termination_by 6 * sizeOf l
decreasing_by
  all_goals simp_wf
  all_goals omega

/-- The per-child pairs `(isBlockLevelParagraphChild(child),
nodeToHtml(child))` consumed by `convertParagraph`'s flush loop. -/
def paraChildPieces (l : List OdtNode) : List (Bool × String) :=
  match l with
  | [] => []
  | c :: rest => (isBlockLevelParagraphChild c, nodeToHtml c) :: paraChildPieces rest
termination_by 6 * sizeOf l
decreasing_by
  all_goals simp_wf
  all_goals omega

/-- The import converter's `convertParagraph`: paragraph-level styles,
inline buffering with a flush before and after each block-level child,
and the empty-paragraph `<br />` placeholders. -/
def convertParagraph (node : OdtNode) : String :=
  let styleAttr := paragraphStyleAttr node
  let children := node.children
  if children.isEmpty then "<p" ++ styleAttr ++ "><br /></p>"
  else
    let (segments, inlineBuffer) := (paraChildPieces children).foldl
      (fun (acc : List String × List String) piece =>
        let (segments, inlineBuffer) := acc
        if piece.1 then
          let segments := flushInlineSegs styleAttr segments inlineBuffer
          let segments := if piece.2 ≠ "" then segments ++ [piece.2] else segments
          (segments, [])
        else (segments, inlineBuffer ++ [piece.2]))
      ([], [])
    let segments := flushInlineSegs styleAttr segments inlineBuffer
    if segments.isEmpty then
      let fallback := nodesToHtml children
      let inner := if fallback = "" then "<br />" else fallback
      "<p" ++ styleAttr ++ ">" ++ inner ++ "</p>"
    else String.join segments
termination_by 6 * sizeOf node + 4
decreasing_by
  all_goals simp_wf
  all_goals have hc := sizeOf_children_lt node
  all_goals omega

/-- The import converter's `convertSpan`: a style-free span with content
passes its content through; an empty span keeps a `&nbsp;` placeholder. -/
def convertSpan (node : OdtNode) : String :=
  let styleAttr := spanStyleAttr node
  let content := nodesToHtml node.children
  if styleAttr = "" && content ≠ "" then content
  else
    let inner := if content = "" then "&nbsp;" else content
    "<span" ++ styleAttr ++ ">" ++ inner ++ "</span>"
termination_by 6 * sizeOf node + 4
decreasing_by
  all_goals simp_wf
  all_goals have hc := sizeOf_children_lt node
  all_goals omega

/-- The import converter's `convertTable`: children partitioned by name
into columns, header groups and body rows. -/
def convertTable (node : OdtNode) : String :=
  let style := combineStyles
    [mapTableProperties (getResolvedProperties node ("style:table-properties"))]
  let styleAttr := styleMapToAttr style
  let columns := node.children.filter fun c => c.name = "table:table-column"
  let headerGroups := node.children.filter fun c => c.name = "table:table-header-rows"
  let bodyRows := node.children.filter fun c => c.name = "table:table-row"
  let colgroup := convertTableColumns columns
  let thead := convertTableColumnsGroup headerGroups
  let tbody :=
    if !bodyRows.isEmpty then "<tbody>" ++ String.join (tableRowsList bodyRows) ++ "</tbody>"
    else ""
  let inner := String.join ([colgroup, thead, tbody].filter fun s => s ≠ "")
  "<table class=\"tiptap-table\"" ++ styleAttr ++ ">" ++ inner ++ "</table>"
termination_by 6 * sizeOf node + 4
decreasing_by
  all_goals simp_wf
  all_goals have hc := sizeOf_children_lt node
  all_goals try have h1 := sizeOf_filter_le (fun c => decide (c.name = "table:table-header-rows")) node.children
  all_goals try have h2 := sizeOf_filter_le (fun c => decide (c.name = "table:table-row")) node.children
  all_goals omega

/-- The `bodyRows.map(row => convertTableRow(row, "td"))` recursion of
`convertTable`. -/
def tableRowsList (l : List OdtNode) : List String :=
  match l with
  | [] => []
  | r :: rest => convertTableRow r ("td") :: tableRowsList rest
termination_by 6 * sizeOf l
decreasing_by
  all_goals simp_wf
  all_goals omega

/-- The import converter's `convertTableColumnsGroup`. -/
def convertTableColumnsGroup (groups : List OdtNode) : String :=
  let rows := headerGroupRows groups
  if rows.isEmpty then "" else "<thead>" ++ String.join rows ++ "</thead>"
termination_by 6 * sizeOf groups + 3
decreasing_by
  all_goals simp_wf

/-- The nested group/row loop of `convertTableColumnsGroup`. -/
def headerGroupRows (l : List OdtNode) : List String :=
  match l with
  | [] => []
  | g :: rest => groupRows g ++ headerGroupRows rest
termination_by 6 * sizeOf l + 2
decreasing_by
  all_goals simp_wf
  all_goals omega

/-- One header group's contribution: its children each rendered as a
`th` row. -/
def groupRows (g : OdtNode) : List String :=
  thRowsList g.children
termination_by 6 * sizeOf g + 1
decreasing_by
  all_goals simp_wf
  all_goals have hc := sizeOf_children_lt g
  all_goals omega

/-- Rows rendered with the `th` cell tag (used by the header-group
renderers). -/
def thRowsList (l : List OdtNode) : List String :=
  match l with
  | [] => []
  | r :: rest => convertTableRow r ("th") :: thRowsList rest
termination_by 6 * sizeOf l
decreasing_by
  all_goals simp_wf
  all_goals omega

/-- The import converter's `convertTableHeaderRows`. -/
def convertTableHeaderRows (node : OdtNode) : String :=
  let rows := String.join (thRowsList node.children)
  if rows ≠ "" then "<thead>" ++ rows ++ "</thead>" else ""
termination_by 6 * sizeOf node + 4
decreasing_by
  all_goals simp_wf
  all_goals have hc := sizeOf_children_lt node
  all_goals omega

/-- The import converter's `convertTableRow`. -/
def convertTableRow (node : OdtNode) (cellTag : String) : String :=
  let style := combineStyles
    [mapTableRowProperties (getResolvedProperties node ("style:table-row-properties"))]
  let styleAttr := styleMapToAttr style
  let cells := String.join ((rowCellsList cellTag node.children).filter fun s => s ≠ "")
  "<tr" ++ styleAttr ++ ">" ++ cells ++ "</tr>"
termination_by 6 * sizeOf node + 4
decreasing_by
  all_goals simp_wf
  all_goals have hc := sizeOf_children_lt node
  all_goals omega

/-- The per-child dispatch of `convertTableRow`. -/
def rowCellsList (cellTag : String) (l : List OdtNode) : List String :=
  match l with
  | [] => []
  | child :: rest =>
    (if child.name = "table:table-cell" then convertTableCell child cellTag
     else if child.name = "table:covered-table-cell" then ""
     else nodeToHtml child) :: rowCellsList cellTag rest
termination_by 6 * sizeOf l
decreasing_by
  all_goals simp_wf
  all_goals omega

/-- The import converter's `convertTableCell`. -/
def convertTableCell (node : OdtNode) (tag : String) : String :=
  let style := combineStyles
    [mapTableCellProperties (getResolvedProperties node ("style:table-cell-properties")),
     mapTextProperties (getResolvedProperties node ("style:text-properties"))]
  let styleAttr := styleMapToAttr style
  let colspanAttr := getSpanAttr (objGet node.attributes ("table:number-columns-spanned")) ("colspan")
  let rowspanAttr := getSpanAttr (objGet node.attributes ("table:number-rows-spanned")) ("rowspan")
  let attrs := String.join ([styleAttr, colspanAttr, rowspanAttr].filter fun s => s ≠ "")
  let content := nodesToHtml node.children
  let inner := if content = "" then "<br />" else content
  "<" ++ tag ++ attrs ++ ">" ++ inner ++ "</" ++ tag ++ ">"
termination_by 6 * sizeOf node + 4
decreasing_by
  all_goals simp_wf
  all_goals have hc := sizeOf_children_lt node
  all_goals omega

end

mutual

/-- The import converter's `findNodeByName` (depth-first, first match). -/
def findNodeByName (node : OdtNode) (targetName : String) : Option OdtNode :=
  if node.name = targetName then some node
  else findInChildren node.children targetName
termination_by 2 * sizeOf node + 1
decreasing_by
  all_goals simp_wf
  all_goals have hc := sizeOf_children_lt node
  all_goals omega

/-- The `for (const child of children)` loop of `findNodeByName`. -/
def findInChildren (l : List OdtNode) (targetName : String) : Option OdtNode :=
  match l with
  | [] => none
  | c :: rest =>
    match findNodeByName c targetName with
    | some found => some found
    | none => findInChildren rest targetName
termination_by 2 * sizeOf l
decreasing_by
  all_goals simp_wf
  all_goals omega

end

/-- The import converter's entry point `odtJsonToHtml`. -/
def odtJsonToHtml (doc : Option OdtJsonDocument) : String :=
  match doc with
  | none => ""
  | some d =>
    match d.content with
    | none => ""
    | some content =>
      match findNodeByName content ("office:text") with
      | none => ""
      | some officeText => nodesToHtml officeText.children

/-! ## Statement-support definitions -/

/-- Modelled from the claim's wording, for comparison with the renderer:
the column count asserted by the specification — the maximum, over all
rows, of the sum of each cell's `colSpan` with 1 as the default. -/
def specColumnCount (t : Table) : ℕ :=
  (t.rows.map fun r => (r.cells.map fun c => c.colSpan.getD 1).sum).foldl max 0

/-- The numeric value `cssLengthToCm` parses for its input, mirroring the
unit dispatch of the source branch by branch. -/
def cssNumericOf (value : String) : JsNum :=
  let trimmed := jsToLower (jsTrim value)
  if trimmed = "" then JsNum.nan
  else if jsEndsWith trimmed ("cm") then parseFloat (jsDropRight trimmed 2)
  else if jsEndsWith trimmed ("mm") then parseFloat (jsDropRight trimmed 2)
  else if jsEndsWith trimmed ("in") then parseFloat (jsDropRight trimmed 2)
  else if jsEndsWith trimmed ("pt") then parseFloat (jsDropRight trimmed 2)
  else if jsEndsWith trimmed ("px") then parseFloat (jsDropRight trimmed 2)
  else parseFloat trimmed

/-- A zero, negative or non-finite JavaScript number. -/
def jsNonPos (v : JsNum) : Bool :=
  match v with
  | JsNum.num q => decide (q ≤ 0)
  | _ => true

/-- Run `getSpanStyle` over a list of spans (one document build's sequence
of span-style requests), collecting the returned names. -/
def runSpanStyles (spans : List TextSpan) (reg : StyleRegistry) :
    List (Option String) × StyleRegistry :=
  match spans with
  | [] => ([], reg)
  | s :: rest =>
    let (n, reg') := getSpanStyle s reg
    let (ns, reg'') := runSpanStyles rest reg'
    (n :: ns, reg'')

/-- A span that `getSpanStyle` interns (no preset font-family role and at
least one truthy tracked property). -/
def eligibleSpan (s : TextSpan) : Bool :=
  !s.fontFamily.isSome && hasFormatting s

/-- The canonical keys of the interned spans, in traversal order. -/
def spanKeyTrace (spans : List TextSpan) : List String :=
  spans.filterMap fun s => if eligibleSpan s then some (keyForSpan s) else none

/-- The generated names of one build's interned spans, in traversal
order, starting from a fresh registry. -/
def assignedSpanNames (spans : List TextSpan) : List String :=
  ((runSpanStyles spans {}).1).filterMap id

/-- The per-character escaping of the five XML special characters (the
specification of `escapeXml`). -/
def escCharList (c : Char) : List Char :=
  if c = '&' then ("&amp;").data
  else if c = '<' then ("&lt;").data
  else if c = '>' then ("&gt;").data
  else if c = '"' then ("&quot;").data
  else if c = '\'' then ("&apos;").data
  else [c]

/-- The list starts with the tail of one of the five XML entities. -/
def entityTailAt (l : List Char) : Bool :=
  ("amp;").data.isPrefixOf l || ("lt;").data.isPrefixOf l || ("gt;").data.isPrefixOf l ||
  ("quot;").data.isPrefixOf l || ("apos;").data.isPrefixOf l

/-- Every ampersand in the list begins one of the five XML entities. -/
def ampersandsStartEntities (l : List Char) : Bool :=
  match l with
  | [] => true
  | c :: rest => (if c = '&' then entityTailAt rest else true) && ampersandsStartEntities rest

/-- The open tail of a merge run: fold the remaining spans into the
current last span, starting a new run at a style boundary (the
`mergeAdjacentSpans` loop with the last pushed span held apart). -/
def mergeRun (cur : TextSpan) (l : List TextSpan) : List TextSpan :=
  match l with
  | [] => [cur]
  | x :: xs =>
    if x.text = "" then mergeRun cur xs
    else if sameSpanStyle cur x then mergeRun { cur with text := cur.text ++ x.text } xs
    else cur :: mergeRun x xs

/-- Concatenation of the texts of a span list. -/
def textConcat : List TextSpan → String
  | [] => ""
  | s :: rest => s.text ++ textConcat rest

/-- The tracked formatting of a span under the coercions `sameSpanStyle`
applies (absent booleans read as `false`, absent strings as `""`). -/
def spanFmt (s : TextSpan) : Bool × Bool × Bool × String × String :=
  (s.bold.getD false, s.italic.getD false, s.underline.getD false,
   s.color.getD "", s.fontSize.getD "")

/-- Interning on bare keys: the name table each span-style request reads
and extends, stripped to its `(key, name)` projection. -/
def internKeys (keys : List String) (tbl : List (String × String)) :
    List String × List (String × String) :=
  match keys with
  | [] => ([], tbl)
  | k :: rest =>
    match tbl.find? (fun e => e.1 = k) with
    | some e =>
      let (ns, tbl') := internKeys rest tbl
      (e.2 :: ns, tbl')
    | none =>
      let n := "T" ++ Nat.repr (tbl.length + 1)
      let (ns, tbl') := internKeys rest (tbl ++ [(k, n)])
      (n :: ns, tbl')

/-- The `(key, name)` projection of the span-style table. -/
def regProj (l : List SpanStyleEntry) : List (String × String) :=
  l.map fun e => (e.key, e.name)

/-- Decimal digit valuation of a character list (inverse of the decimal
printer, used to prove `Nat.repr` injective). -/
def digitsValue (l : List Char) : ℕ :=
  l.foldl (fun a c => a * 10 + (c.toNat - 48)) 0

/-- Well-formedness of the span-style interning table: keys are pairwise
distinct and the entry at position `i` carries the generated name
`T(i+1)`. -/
def spanTableOk (l : List SpanStyleEntry) : Prop :=
  (l.map fun e => e.key).Nodup ∧
  (l.map fun e => e.name) = (List.range l.length).map fun i => "T" ++ Nat.repr (i + 1)

/-! ## Theorems -/

theorem string_append_data (a b : String) : (a ++ b).data = a.data ++ b.data :=
  String.data_append a b

theorem append_ne_empty_of_left_ne_empty (a b : String) (h : a.data ≠ []) : a ++ b ≠ "" := by
  intro he
  apply h
  have hd := congrArg String.data he
  rw [string_append_data] at hd
  exact (List.append_eq_nil.mp hd).1

/-! ### C5 -/

/-- C5: in every produced archive the first entry is named exactly
`mimetype`, holds the literal ODF text MIME string and is stored
(`STORE`); the remaining entries are `content.xml`, `styles.xml`,
`meta.xml`, `settings.xml`, `META-INF/manifest.xml`, each
deflate-compressed. -/
theorem c5_mimetype_first_uncompressed (doc : OdtDoc) (now : String) :
    (makeAndDownloadOdt doc now).map (fun e => e.1) =
      ["mimetype", "content.xml", "styles.xml", "meta.xml", "settings.xml",
       "META-INF/manifest.xml"] ∧
    (makeAndDownloadOdt doc now).map (fun e => e.2.2) =
      [ZipCompression.STORE, ZipCompression.DEFLATE, ZipCompression.DEFLATE,
       ZipCompression.DEFLATE, ZipCompression.DEFLATE, ZipCompression.DEFLATE] ∧
    (makeAndDownloadOdt doc now).head?.map (fun e => e.2.1) =
      some "application/vnd.oasis.opendocument.text" :=
  ⟨rfl, rfl, rfl⟩

/-! ### C7 -/

/-- C7 counterexample: the unparsable color `"red"` is returned verbatim
by `normalizeColor` and stored by the caller `cssToStyles` — propagated,
not dropped as the claim states. -/
theorem c7_counterexample :
    normalizeColor "red" = "red" ∧
    (cssToStyles [("color", "red")]).1.color = some "red" ∧
    (cssToStyles [("color", "red")]).1.color ≠ none := by
  refine ⟨?_, ?_, ?_⟩ <;> with_unfolding_all decide

/-- C7 (amended): `"#abc"` expands to `"#aabbcc"`, `"rgb(255, 0, 0)"`
converts to `"#ff0000"`, `"#11223344"` drops its alpha to `"#112233"`;
an input matching neither the hex form nor the `rgb()/rgba()` form is
returned trimmed but otherwise unchanged — propagated to the caller, not
dropped — and blank input yields the empty string.  (No caller-level
default exists on this path.) -/
theorem c7_amended :
    normalizeColor "#abc" = "#aabbcc" ∧
    normalizeColor "rgb(255, 0, 0)" = "#ff0000" ∧
    normalizeColor "#11223344" = "#112233" ∧
    (∀ value : String,
      jsTrim value ≠ "" →
      hexColorTest (jsTrim value) = false →
      rgbMatchInner (jsTrim value) = none →
      normalizeColor value = jsTrim value) ∧
    (∀ value : String, jsTrim value = "" → normalizeColor value = "") := by
  refine ⟨by with_unfolding_all decide, by with_unfolding_all decide,
    by with_unfolding_all decide, ?_, ?_⟩
  · intro value h1 h2 h3
    unfold normalizeColor
    rw [if_neg h1, if_neg (by simp [h2]), h3]
  · intro value h
    unfold normalizeColor
    rw [if_pos h]

/-- C7 witness: the amended universal parts applied at `"red"` and at a
blank string. -/
theorem c7_amended_witness :
    normalizeColor "red" = jsTrim "red" ∧ normalizeColor "  " = "" :=
  ⟨c7_amended.2.2.2.1 "red" (by with_unfolding_all decide)
      (by with_unfolding_all decide) (by with_unfolding_all decide),
   c7_amended.2.2.2.2 "  " (by with_unfolding_all decide)⟩

/-! ### C8 -/

/-- C8: the three stated conversions hold, and a zero, negative or
non-finite numeric input — at any unit — yields `none` from `pxToCm` and
from `cssLengthToCm` (so neither `"0.0000cm"` nor a negative length
string is ever produced for such inputs). -/
theorem c8_length_conversion :
    pxToCm (JsNum.num 96) = some "2.5400cm" ∧
    cssLengthToCm "72pt" = some "2.5400cm" ∧
    cssLengthToCm "10mm" = some "1.0000cm" ∧
    (∀ v : JsNum, jsNonPos v = true → pxToCm v = none) ∧
    (∀ s : String, jsNonPos (cssNumericOf s) = true → cssLengthToCm s = none) := by
  have hpx : ∀ v : JsNum, jsNonPos v = true → pxToCm v = none := by
    intro v hv
    cases v with
    | nan => rfl
    | inf => rfl
    | negInf => rfl
    | num q =>
      simp only [jsNonPos, decide_eq_true_eq] at hv
      simp [pxToCm, JsNum.isFinite, JsNum.leZero, hv]
  refine ⟨by with_unfolding_all decide, by with_unfolding_all decide,
    by with_unfolding_all decide, hpx, ?_⟩
  intro s hv
  unfold cssLengthToCm
  unfold cssNumericOf at hv
  by_cases h0 : jsToLower (jsTrim s) = ""
  · simp only [h0, if_pos rfl]
    simp [show ("" : String) = "" from rfl]
  · rw [if_neg h0] at hv ⊢
    by_cases hcm : jsEndsWith (jsToLower (jsTrim s)) ("cm") = true
    · rw [if_pos hcm] at hv ⊢
      cases hpf : parseFloat (jsDropRight (jsToLower (jsTrim s)) 2) with
      | num q =>
        rw [hpf] at hv
        simp only [jsNonPos, decide_eq_true_eq] at hv
        simp [hpf, not_lt.mpr hv]
      | nan => simp [hpf]
      | inf => simp [hpf]
      | negInf => simp [hpf]
    · rw [if_neg hcm] at hv ⊢
      by_cases hmm : jsEndsWith (jsToLower (jsTrim s)) ("mm") = true
      · rw [if_pos hmm] at hv ⊢
        cases hpf : parseFloat (jsDropRight (jsToLower (jsTrim s)) 2) with
        | num q =>
          rw [hpf] at hv
          simp only [jsNonPos, decide_eq_true_eq] at hv
          simp [hpf, not_lt.mpr hv]
        | nan => simp [hpf]
        | inf => simp [hpf]
        | negInf => simp [hpf]
      · rw [if_neg hmm] at hv ⊢
        by_cases hin : jsEndsWith (jsToLower (jsTrim s)) ("in") = true
        · rw [if_pos hin] at hv ⊢
          cases hpf : parseFloat (jsDropRight (jsToLower (jsTrim s)) 2) with
          | num q =>
            rw [hpf] at hv
            simp only [jsNonPos, decide_eq_true_eq] at hv
            simp [hpf, not_lt.mpr hv]
          | nan => simp [hpf]
          | inf => simp [hpf]
          | negInf => simp [hpf]
        · rw [if_neg hin] at hv ⊢
          by_cases hpt : jsEndsWith (jsToLower (jsTrim s)) ("pt") = true
          · rw [if_pos hpt] at hv ⊢
            cases hpf : parseFloat (jsDropRight (jsToLower (jsTrim s)) 2) with
            | num q =>
              rw [hpf] at hv
              simp only [jsNonPos, decide_eq_true_eq] at hv
              simp [hpf, not_lt.mpr hv]
            | nan => simp [hpf]
            | inf => simp [hpf]
            | negInf => simp [hpf]
          · rw [if_neg hpt] at hv ⊢
            by_cases hpxu : jsEndsWith (jsToLower (jsTrim s)) ("px") = true
            · rw [if_pos hpxu] at hv ⊢
              cases hpf : parseFloat (jsDropRight (jsToLower (jsTrim s)) 2) with
              | num q =>
                rw [hpf] at hv
                simp only [jsNonPos, decide_eq_true_eq] at hv
                simp [hpf, not_lt.mpr hv]
              | nan => simp [hpf]
              | inf => simp [hpf]
              | negInf => simp [hpf]
            · rw [if_neg hpxu] at hv ⊢
              cases hpf : parseFloat (jsToLower (jsTrim s)) with
              | num q =>
                rw [hpf] at hv
                simp only [jsNonPos, decide_eq_true_eq] at hv
                simp [hpf, JsNum.isNaN, JsNum.gtZero, not_lt.mpr hv]
              | nan => simp [hpf, JsNum.isNaN]
              | inf =>
                rw [hpf] at hv
                simp only [hpf, JsNum.isNaN, JsNum.gtZero, Bool.not_false, Bool.and_self,
                  if_pos]
                exact hpx JsNum.inf rfl
              | negInf => simp [hpf, JsNum.isNaN, JsNum.gtZero]

/-- C8 witness: the universal parts applied at `-1`, `"0cm"`, `"-2px"`
and `"abc"`. -/
theorem c8_length_conversion_witness :
    pxToCm (JsNum.num (-1)) = none ∧ cssLengthToCm "0cm" = none ∧
    cssLengthToCm "-2px" = none ∧ cssLengthToCm "abc" = none :=
  ⟨c8_length_conversion.2.2.2.1 (JsNum.num (-1)) (by with_unfolding_all decide),
   c8_length_conversion.2.2.2.2 "0cm" (by with_unfolding_all decide),
   c8_length_conversion.2.2.2.2 "-2px" (by with_unfolding_all decide),
   c8_length_conversion.2.2.2.2 "abc" (by with_unfolding_all decide)⟩

/-! ### C2 -/

theorem renderParagraph_ne_empty (p : Paragraph) (reg : StyleRegistry) :
    (renderParagraph p reg).1 ≠ "" := by
  unfold renderParagraph
  rcases hgp : getParagraphStyle p reg with ⟨n, st⟩
  simp only []
  split
  · apply append_ne_empty_of_left_ne_empty
    rw [string_append_data]
    simp
  · apply append_ne_empty_of_left_ne_empty
    rw [string_append_data]
    simp

theorem elementToParagraph_p_isSome (classes : List String) (styleAttr : Option String)
    (children : List DomNode) :
    (elementToParagraph (DomNode.element "P" classes styleAttr children)).isSome = true := by
  unfold elementToParagraph
  rcases getElementStyles (DomNode.element "P" classes styleAttr children) with ⟨es, al, ps⟩
  simp only [DomNode.tagOf]
  split <;> simp

/-- C2 counterexample: the HTML `<p><br></p>` exports to a paragraph
whose `spans` array holds one span with text `"\n"` — not the empty
`spans` array the claim states — and that paragraph renders as
`<text:p><text:line-break/></text:p>`, not as `<text:p/>`. -/
theorem c2_counterexample :
    elementToParagraph (DomNode.element "P" [] none [DomNode.element "BR" [] none []]) =
      some { spans := [{ text := "\n" }] } ∧
    some ({ spans := [{ text := "\n" }] } : Paragraph) ≠ some ({ spans := [] } : Paragraph) ∧
    (renderParagraph { spans := [{ text := "\n" }] } {}).1 =
      "<text:p><text:line-break/></text:p>" ∧
    "<text:p><text:line-break/></text:p>" ≠ "<text:p/>" := by
  refine ⟨?_, ?_, ?_, ?_⟩ <;> with_unfolding_all decide

/-- C2 (amended): an empty `<p></p>` exports to a paragraph block with an
empty `spans` array, and an empty-`spans` paragraph renders as the
self-closing `<text:p/>`; `<p><br></p>` however exports to a paragraph
with a single span of text `"\n"`, rendered as
`<text:p><text:line-break/></text:p>`.  A `<p>` element always yields a
paragraph block (never omitted), and a rendered paragraph is never the
empty string. -/
theorem c2_amended :
    elementToParagraph (DomNode.element "P" [] none []) = some { spans := [] } ∧
    (renderParagraph { spans := [] } {}).1 = "<text:p/>" ∧
    elementToParagraph (DomNode.element "P" [] none [DomNode.element "BR" [] none []]) =
      some { spans := [{ text := "\n" }] } ∧
    (renderParagraph { spans := [{ text := "\n" }] } {}).1 =
      "<text:p><text:line-break/></text:p>" ∧
    (∀ (classes : List String) (styleAttr : Option String) (children : List DomNode),
      (elementToParagraph (DomNode.element "P" classes styleAttr children)).isSome = true) ∧
    (∀ (p : Paragraph) (reg : StyleRegistry), (renderParagraph p reg).1 ≠ "") := by
  refine ⟨by with_unfolding_all decide, by with_unfolding_all decide,
    by with_unfolding_all decide, by with_unfolding_all decide,
    elementToParagraph_p_isSome, renderParagraph_ne_empty⟩

/-- C2 witness: the amended universal parts at concrete inputs. -/
theorem c2_amended_witness :
    (elementToParagraph (DomNode.element "P" ["bold"] (some "color: red")
      [DomNode.text "hi"])).isSome = true ∧
    (renderParagraph { spans := [] } {}).1 ≠ "" :=
  ⟨c2_amended.2.2.2.2.1 ["bold"] (some "color: red") [DomNode.text "hi"],
   c2_amended.2.2.2.2.2 { spans := [] } {}⟩

/-! ### C1 -/

theorem isPrefixOf_append_self (l t : List Char) : l.isPrefixOf (l ++ t) = true := by
  induction l with
  | nil => simp [List.isPrefixOf]
  | cons a as ih => simp [List.isPrefixOf, ih]

theorem foldl_append_one_length {α β : Type} (f : List String × β → α → List String × β)
    (hf : ∀ acc i, ∃ s, (f acc i).1 = acc.1 ++ [s]) :
    ∀ (l : List α) (acc : List String × β),
      ((l.foldl f acc).1).length = acc.1.length + l.length := by
  intro l
  induction l with
  | nil => intro acc; simp
  | cons x xs ih =>
    intro acc
    rw [List.foldl_cons, ih]
    obtain ⟨s, hs⟩ := hf acc x
    rw [hs]
    simp
    omega

theorem foldl_append_one_all {α β : Type} (P : String → Bool)
    (f : List String × β → α → List String × β)
    (hf : ∀ acc i, ∃ s, (f acc i).1 = acc.1 ++ [s] ∧ P s = true) :
    ∀ (l : List α) (acc : List String × β),
      acc.1.all P = true → ((l.foldl f acc).1).all P = true := by
  intro l
  induction l with
  | nil => intro acc h; simpa using h
  | cons x xs ih =>
    intro acc h
    rw [List.foldl_cons]
    apply ih
    obtain ⟨s, hs, hPs⟩ := hf acc x
    rw [hs, List.all_append]
    simp [h, hPs]

theorem renderTableColumns_step (t : Table) (acc : List String × StyleRegistry) (i : ℕ) :
    ∃ s,
      ((fun (acc : List String × StyleRegistry) index =>
        let (cols, styles) := acc
        let width : Option String :=
          match t.columnWidths with
          | some ws => ws.getD index none
          | none => none
        let (styleName, styles) := getTableColumnStyle width styles
        let attr :=
          match styleName with
          | some n => " table:style-name=\"" ++ n ++ "\""
          | none => " table:style-name=\"TableColumn\""
        (cols ++ ["<table:table-column" ++ attr ++ "/>"], styles)) acc i).1 =
      acc.1 ++ [s] ∧
      jsStartsWith s ("<table:table-column") = true := by
  rcases acc with ⟨cols, reg⟩
  rcases hgc : getTableColumnStyle
    (match t.columnWidths with
     | some ws => ws.getD i none
     | none => none) reg with ⟨nm, st⟩
  refine ⟨"<table:table-column" ++
      (match nm with
       | some n => " table:style-name=\"" ++ n ++ "\""
       | none => " table:style-name=\"TableColumn\"") ++ "/>", ?_, ?_⟩
  · simp only [hgc]
    cases nm <;> rfl
  · unfold jsStartsWith
    rw [string_append_data, string_append_data, List.append_assoc]
    exact isPrefixOf_append_self _ _

set_option maxRecDepth 40000 in
/-- C1 counterexample: a one-row table whose single cell has `colSpan` 2
renders exactly one `<table:table-column>` element, while the claimed
count — the row-wise maximum of summed `colSpan`s — is 2. -/
theorem c1_counterexample :
    ((renderTableColumns { rows := [{ cells := [{ paragraphs := [], colSpan := some 2 }] }] }
        {}).1).length = 1 ∧
    specColumnCount { rows := [{ cells := [{ paragraphs := [], colSpan := some 2 }] }] } = 2 ∧
    (renderTable { rows := [{ cells := [{ paragraphs := [], colSpan := some 2 }] }] } {}).1 =
      "<table:table table:style-name=\"TableCustom1\"><table:table-column table:style-name=\"TableColumn\"/><table:table-row table:style-name=\"TableRow\"><table:table-cell table:style-name=\"TableCell\" table:number-columns-spanned=\"2\"><text:p/></table:table-cell></table:table-row></table:table>" ∧
    (1 : ℕ) ≠ 2 := by
  refine ⟨?_, ?_, ?_, ?_⟩ <;> with_unfolding_all decide

/-- C1 (amended): the number of `<table:table-column>` elements the table
renderer emits equals the maximum, over all rows, of the row's *cell
count* (`r.cells.length`, ignoring `colSpan`), and 0 for a table without
rows; every emitted element is a `<table:table-column>` tag. -/
theorem c1_amended (t : Table) (reg : StyleRegistry) :
    ((renderTableColumns t reg).1).length =
      (if t.rows.isEmpty then 0 else (t.rows.map fun r => r.cells.length).foldl max 0) ∧
    ((renderTableColumns t reg).1).all
      (fun col => jsStartsWith col ("<table:table-column")) = true := by
  constructor
  · unfold renderTableColumns
    rw [foldl_append_one_length]
    · simp [tableColsCount]
    · intro acc i
      obtain ⟨s, hs, _⟩ := renderTableColumns_step t acc i
      exact ⟨s, hs⟩
  · unfold renderTableColumns
    apply foldl_append_one_all
    · intro acc i
      exact renderTableColumns_step t acc i
    · rfl

/-! ### C4 -/

theorem string_ne_empty_iff (s : String) : s ≠ "" ↔ s.data ≠ [] := by
  constructor
  · intro h hd
    exact h (String.ext hd)
  · intro h he
    apply h
    rw [he]

theorem string_append_ne_empty_left (a b : String) (h : a ≠ "") : a ++ b ≠ "" := by
  apply append_ne_empty_of_left_ne_empty
  exact (string_ne_empty_iff a).mp h

theorem sameSpanStyle_iff (a b : TextSpan) :
    sameSpanStyle a b = true ↔ spanFmt a = spanFmt b := by
  simp [sameSpanStyle, spanFmt, Prod.ext_iff, Bool.and_eq_true, decide_eq_true_eq, and_assoc]

theorem spanFmt_text_update (s : TextSpan) (t : String) :
    spanFmt { s with text := t } = spanFmt s := rfl

theorem sameSpanStyle_text_update (a b : TextSpan) (t : String) :
    sameSpanStyle a { b with text := t } = sameSpanStyle a b := rfl

theorem mergeStep_nil (x : TextSpan) (hx : x.text ≠ "") : mergeStep [] x = [x] := by
  simp [mergeStep, hx]

theorem mergeStep_concat_same (done : List TextSpan) (cur x : TextSpan) (hx : x.text ≠ "")
    (hs : sameSpanStyle cur x = true) :
    mergeStep (done ++ [cur]) x = done ++ [{ cur with text := cur.text ++ x.text }] := by
  simp [mergeStep, hx, List.getLast?_concat, hs, List.dropLast_concat]

theorem mergeStep_concat_diff (done : List TextSpan) (cur x : TextSpan) (hx : x.text ≠ "")
    (hs : sameSpanStyle cur x = false) :
    mergeStep (done ++ [cur]) x = (done ++ [cur]) ++ [x] := by
  simp [mergeStep, hx, List.getLast?_concat, hs, List.dropLast_concat]

theorem foldl_mergeStep_concat :
    ∀ (xs done : List TextSpan) (cur : TextSpan),
      List.foldl mergeStep (done ++ [cur]) xs = done ++ mergeRun cur xs := by
  intro xs
  induction xs with
  | nil => intro done cur; simp [mergeRun]
  | cons x rest ih =>
    intro done cur
    rw [List.foldl_cons]
    by_cases hx : x.text = ""
    · rw [show mergeStep (done ++ [cur]) x = done ++ [cur] from by simp [mergeStep, hx]]
      rw [ih]
      simp only [mergeRun, if_pos hx]
    · by_cases hs : sameSpanStyle cur x = true
      · rw [mergeStep_concat_same done cur x hx hs, ih]
        simp only [mergeRun, if_neg hx, if_pos hs]
      · rw [mergeStep_concat_diff done cur x hx (by simpa using hs), ih]
        simp only [mergeRun, if_neg hx, if_neg hs]
        simp [List.append_assoc]

theorem mergeRun_run :
    ∀ (xs : List TextSpan) (cur : TextSpan) (post : List TextSpan),
      (∀ x ∈ xs, spanFmt x = spanFmt cur) →
      (∀ x ∈ xs, x.text ≠ "") →
      mergeRun cur (xs ++ post) =
        mergeRun { cur with text := cur.text ++ textConcat xs } post := by
  intro xs
  induction xs with
  | nil =>
    intro cur post _ _
    simp only [List.nil_append, textConcat]
    rw [String.append_empty]
  | cons x rest ih =>
    intro cur post hfmt htext
    have hx : x.text ≠ "" := htext x (by simp)
    have hfx : spanFmt x = spanFmt cur := hfmt x (by simp)
    have hsame : sameSpanStyle cur x = true := (sameSpanStyle_iff cur x).mpr hfx.symm
    rw [List.cons_append]
    simp only [mergeRun, if_neg hx, if_pos hsame]
    rw [ih { cur with text := cur.text ++ x.text } post ?_ ?_]
    · simp only [textConcat]
      rw [String.append_assoc]
    · intro y hy
      rw [spanFmt_text_update]
      exact hfmt y (by simp [hy])
    · intro y hy
      exact htext y (by simp [hy])

theorem mergeRun_whole (g : TextSpan) (gs : List TextSpan)
    (hfmt : ∀ x ∈ gs, spanFmt x = spanFmt g) (htext : ∀ x ∈ gs, x.text ≠ "") :
    mergeRun g gs = [{ g with text := g.text ++ textConcat gs }] := by
  have h := mergeRun_run gs g [] hfmt htext
  rw [List.append_nil] at h
  rw [h]
  rfl

theorem foldl_mergeStep_run (g : TextSpan) (gs : List TextSpan)
    (hg : g.text ≠ "")
    (hfmt : ∀ x ∈ gs, spanFmt x = spanFmt g)
    (htext : ∀ x ∈ gs, x.text ≠ "") :
    ∀ A : List TextSpan,
      List.foldl mergeStep A (g :: gs) =
        mergeStep A { g with text := g.text ++ textConcat gs } := by
  have hg' : ({ g with text := g.text ++ textConcat gs } : TextSpan).text ≠ "" := by
    show g.text ++ textConcat gs ≠ ""
    exact string_append_ne_empty_left _ _ hg
  intro A
  match A with
  | [] =>
    rw [List.foldl_cons, mergeStep_nil g hg, mergeStep_nil _ hg']
    rw [show [g] = ([] : List TextSpan) ++ [g] from rfl, foldl_mergeStep_concat]
    rw [mergeRun_whole g gs hfmt htext]
    rfl
  | a :: as =>
    have hAne : a :: as ≠ ([] : List TextSpan) := by simp
    have hdecomp := List.dropLast_append_getLast hAne
    rw [List.foldl_cons, ← hdecomp]
    by_cases hsame : sameSpanStyle ((a :: as).getLast hAne) g = true
    · rw [mergeStep_concat_same _ _ g hg hsame, foldl_mergeStep_concat]
      have hfc : spanFmt ((a :: as).getLast hAne) = spanFmt g :=
        (sameSpanStyle_iff _ g).mp hsame
      rw [mergeRun_whole _ gs ?_ htext]
      · rw [mergeStep_concat_same _ _ _ hg'
          (by rw [sameSpanStyle_text_update]; exact hsame)]
        simp only [spanFmt_text_update]
        rw [String.append_assoc]
      · intro y hy
        rw [spanFmt_text_update]
        exact (hfmt y hy).trans hfc.symm
    · rw [mergeStep_concat_diff _ _ g hg (by simpa using hsame), foldl_mergeStep_concat]
      rw [mergeRun_whole g gs hfmt htext]
      rw [mergeStep_concat_diff _ _ _ hg'
        (by rw [sameSpanStyle_text_update]; simpa using hsame)]

/-- C4: N (= 1 + `gs.length` ≥ 2) consecutive raw spans with identical
formatting (in the sense of `sameSpanStyle`) and nonempty texts — as the
extraction produces — merge to exactly one span holding the concatenated
texts: in any surrounding context they contribute exactly what the single
concatenated span contributes, and a paragraph whose raw extraction is
exactly the run merges to that one span. -/
theorem c4_adjacent_run_merging (pre : List TextSpan) (g : TextSpan) (gs post : List TextSpan)
    (_hN : 2 ≤ (g :: gs).length)
    (hstyle : ∀ x ∈ g :: gs, sameSpanStyle x g = true)
    (htext : ∀ x ∈ g :: gs, x.text ≠ "") :
    mergeAdjacentSpans (pre ++ (g :: gs) ++ post) =
      mergeAdjacentSpans (pre ++ ({ g with text := g.text ++ textConcat gs } :: post)) ∧
    mergeAdjacentSpans (g :: gs) = [{ g with text := g.text ++ textConcat gs }] := by
  have hg : g.text ≠ "" := htext g (by simp)
  have hfmt : ∀ x ∈ gs, spanFmt x = spanFmt g := by
    intro x hx
    exact (sameSpanStyle_iff x g).mp (hstyle x (by simp [hx]))
  have htext' : ∀ x ∈ gs, x.text ≠ "" := fun x hx => htext x (by simp [hx])
  have hrun := foldl_mergeStep_run g gs hg hfmt htext'
  constructor
  · unfold mergeAdjacentSpans
    rw [List.foldl_append, List.foldl_append, hrun, List.foldl_append, List.foldl_cons]
  · unfold mergeAdjacentSpans
    rw [hrun, mergeStep_nil]
    show g.text ++ textConcat gs ≠ ""
    exact string_append_ne_empty_left _ _ hg

/-- C4 witness: three identically formatted bold spans merge into one
span `"abc"`, both inside a surrounding context and standing alone. -/
theorem c4_adjacent_run_merging_witness :
    mergeAdjacentSpans
        ([{ text := "z", italic := some true }] ++
          ({ text := "a", bold := some true } :: [{ text := "b", bold := some true },
            { text := "c", bold := some true }]) ++ []) =
      mergeAdjacentSpans
        ([{ text := "z", italic := some true }] ++
          ({ text := "abc", bold := some true } :: [])) ∧
    mergeAdjacentSpans
        ({ text := "a", bold := some true } :: [{ text := "b", bold := some true },
          { text := "c", bold := some true }]) =
      [{ text := "abc", bold := some true }] := by
  have h := c4_adjacent_run_merging [{ text := "z", italic := some true }]
    { text := "a", bold := some true }
    [{ text := "b", bold := some true }, { text := "c", bold := some true }] []
    (by with_unfolding_all decide) (by with_unfolding_all decide)
    (by with_unfolding_all decide)
  constructor
  · exact h.1
  · exact h.2

/-! ### C10 -/

theorem replaceChar_append (c : Char) (r l1 l2 : List Char) :
    replaceChar c r (l1 ++ l2) = replaceChar c r l1 ++ replaceChar c r l2 := by
  simp [replaceChar]

theorem escChain_cons (c : Char) (l : List Char) :
    replaceChar '\'' ("&apos;").data (replaceChar '"' ("&quot;").data
      (replaceChar '>' ("&gt;").data (replaceChar '<' ("&lt;").data
        (replaceChar '&' ("&amp;").data (c :: l))))) =
    replaceChar '\'' ("&apos;").data (replaceChar '"' ("&quot;").data
      (replaceChar '>' ("&gt;").data (replaceChar '<' ("&lt;").data
        (replaceChar '&' ("&amp;").data [c])))) ++
    replaceChar '\'' ("&apos;").data (replaceChar '"' ("&quot;").data
      (replaceChar '>' ("&gt;").data (replaceChar '<' ("&lt;").data
        (replaceChar '&' ("&amp;").data l)))) := by
  rw [show (c :: l) = [c] ++ l from rfl]
  rw [replaceChar_append, replaceChar_append, replaceChar_append, replaceChar_append,
    replaceChar_append]

theorem escChain_single (c : Char) :
    replaceChar '\'' ("&apos;").data (replaceChar '"' ("&quot;").data
      (replaceChar '>' ("&gt;").data (replaceChar '<' ("&lt;").data
        (replaceChar '&' ("&amp;").data [c])))) = escCharList c := by
  by_cases h1 : c = '&'
  · subst h1; rfl
  by_cases h2 : c = '<'
  · subst h2; rfl
  by_cases h3 : c = '>'
  · subst h3; rfl
  by_cases h4 : c = '"'
  · subst h4; rfl
  by_cases h5 : c = '\''
  · subst h5; rfl
  simp [replaceChar, escCharList, h1, h2, h3, h4, h5]

theorem escChain_eq (l : List Char) :
    replaceChar '\'' ("&apos;").data (replaceChar '"' ("&quot;").data
      (replaceChar '>' ("&gt;").data (replaceChar '<' ("&lt;").data
        (replaceChar '&' ("&amp;").data l)))) = l.flatMap escCharList := by
  induction l with
  | nil => rfl
  | cons c l ih =>
    rw [escChain_cons, escChain_single, ih, List.flatMap_cons]

theorem escCharList_no_specials (c : Char) :
    ((escCharList c).all fun d => !(d = '<' || d = '>' || d = '"' || d = '\'')) = true := by
  unfold escCharList
  split_ifs with h1 h2 h3 h4 h5
  · decide
  · decide
  · decide
  · decide
  · decide
  · simp [h2, h3, h4, h5]

theorem flatMap_escCharList_no_specials (l : List Char) :
    ((l.flatMap escCharList).all fun d => !(d = '<' || d = '>' || d = '"' || d = '\'')) = true := by
  induction l with
  | nil => rfl
  | cons c l ih =>
    rw [List.flatMap_cons, List.all_append]
    rw [escCharList_no_specials c, ih]
    rfl

theorem amp_flatMap_escCharList (l : List Char) :
    ampersandsStartEntities (l.flatMap escCharList) = true := by
  induction l with
  | nil => rfl
  | cons c l ih =>
    rw [List.flatMap_cons]
    by_cases h1 : c = '&'
    · subst h1
      rw [show escCharList '&' = '&' :: ('a' :: 'm' :: 'p' :: ';' :: []) from rfl]
      simp [ampersandsStartEntities, entityTailAt, List.isPrefixOf, ih]
    · by_cases h2 : c = '<'
      · subst h2
        rw [show escCharList '<' = '&' :: ('l' :: 't' :: ';' :: []) from rfl]
        simp [ampersandsStartEntities, entityTailAt, List.isPrefixOf, ih]
      · by_cases h3 : c = '>'
        · subst h3
          rw [show escCharList '>' = '&' :: ('g' :: 't' :: ';' :: []) from rfl]
          simp [ampersandsStartEntities, entityTailAt, List.isPrefixOf, ih]
        · by_cases h4 : c = '"'
          · subst h4
            rw [show escCharList '"' = '&' :: ('q' :: 'u' :: 'o' :: 't' :: ';' :: []) from rfl]
            simp [ampersandsStartEntities, entityTailAt, List.isPrefixOf, ih]
          · by_cases h5 : c = '\''
            · subst h5
              rw [show escCharList '\'' = '&' :: ('a' :: 'p' :: 'o' :: 's' :: ';' :: []) from rfl]
              simp [ampersandsStartEntities, entityTailAt, List.isPrefixOf, ih]
            · rw [show escCharList c = [c] from by simp [escCharList, h1, h2, h3, h4, h5]]
              simp [ampersandsStartEntities, h1, ih]

/-- C10: `escapeXml` is exactly the per-character replacement of the five
XML special characters by their entities, its output contains no raw
`<`, `>`, `"` or `'` at all, every `&` in its output begins one of the
five entities, and span text rendered into the content XML passes through
it (shown at a representative input). -/
theorem c10_xml_escaping :
    (∀ s : String,
      escapeXml s = ⟨s.data.flatMap escCharList⟩ ∧
      ((escapeXml s).data.all fun d => !(d = '<' || d = '>' || d = '"' || d = '\'')) = true ∧
      ampersandsStartEntities (escapeXml s).data = true) ∧
    (renderParagraph { spans := [{ text := "a<&b\"'" }] } {}).1 =
      "<text:p><text:span>a&lt;&amp;b&quot;&apos;</text:span></text:p>" := by
  constructor
  · intro s
    have hdata : (escapeXml s).data = s.data.flatMap escCharList := by
      unfold escapeXml
      exact escChain_eq s.data
    refine ⟨String.ext hdata, ?_, ?_⟩
    · rw [hdata]
      exact flatMap_escCharList_no_specials s.data
    · rw [hdata]
      exact amp_flatMap_escCharList s.data
  · with_unfolding_all decide

theorem digits_foldl_linear : ∀ (l : List Char) (a : ℕ),
    l.foldl (fun x c => x * 10 + (c.toNat - 48)) a = a * 10 ^ l.length + digitsValue l := by
  intro l
  induction l with
  | nil => intro a; simp [digitsValue]
  | cons c t ih =>
    intro a
    have hstep : (c :: t).foldl (fun x c => x * 10 + (c.toNat - 48)) a
        = t.foldl (fun x c => x * 10 + (c.toNat - 48)) (a * 10 + (c.toNat - 48)) := rfl
    have h0 : digitsValue (c :: t) = (c.toNat - 48) * 10 ^ t.length + digitsValue t := by
      have h00 : digitsValue (c :: t)
          = t.foldl (fun x c => x * 10 + (c.toNat - 48)) (0 * 10 + (c.toNat - 48)) := rfl
      rw [h00, ih (0 * 10 + (c.toNat - 48))]
      ring
    rw [hstep, ih (a * 10 + (c.toNat - 48)), h0, List.length_cons]
    ring

theorem digitChar_val (d : ℕ) (h : d < 10) : (Nat.digitChar d).toNat - 48 = d := by
  interval_cases d <;> rfl

theorem digitsValue_digitChar_cons (n : ℕ) (ds : List Char) :
    digitsValue (Nat.digitChar (n % 10) :: ds)
      = (n % 10) * 10 ^ ds.length + digitsValue ds := by
  have h00 : digitsValue (Nat.digitChar (n % 10) :: ds)
      = ds.foldl (fun x c => x * 10 + (c.toNat - 48))
          (0 * 10 + ((Nat.digitChar (n % 10)).toNat - 48)) := rfl
  rw [h00, digits_foldl_linear ds (0 * 10 + ((Nat.digitChar (n % 10)).toNat - 48)),
    digitChar_val (n % 10) (Nat.mod_lt n (by omega))]
  ring

theorem toDigitsCore_value : ∀ (fuel n : ℕ) (ds : List Char), n < fuel →
    digitsValue (Nat.toDigitsCore 10 fuel n ds) = n * 10 ^ ds.length + digitsValue ds := by
  intro fuel
  induction fuel with
  | zero => intro n ds h; exact absurd h (Nat.not_lt_zero n)
  | succ f ih =>
    intro n ds h
    have hunf : Nat.toDigitsCore 10 (f + 1) n ds
        = if n / 10 = 0 then Nat.digitChar (n % 10) :: ds
          else Nat.toDigitsCore 10 f (n / 10) (Nat.digitChar (n % 10) :: ds) := rfl
    rw [hunf]
    by_cases h0 : n / 10 = 0
    · rw [if_pos h0, digitsValue_digitChar_cons n ds, Nat.mod_eq_of_lt (by omega)]
    · rw [if_neg h0]
      have h1 : n / 10 < f := by omega
      rw [ih (n / 10) (Nat.digitChar (n % 10) :: ds) h1, digitsValue_digitChar_cons n ds,
        List.length_cons]
      have hdm : 10 * (n / 10) + n % 10 = n := Nat.div_add_mod n 10
      calc n / 10 * 10 ^ (ds.length + 1) + (n % 10 * 10 ^ ds.length + digitsValue ds)
          = (10 * (n / 10) + n % 10) * 10 ^ ds.length + digitsValue ds := by ring
        _ = n * 10 ^ ds.length + digitsValue ds := by rw [hdm]

theorem digitsValue_toDigits (n : ℕ) : digitsValue (Nat.toDigits 10 n) = n := by
  have h : Nat.toDigits 10 n = Nat.toDigitsCore 10 (n + 1) n [] := rfl
  rw [h, toDigitsCore_value (n + 1) n [] (Nat.lt_succ_self n)]
  simp [digitsValue]

theorem natRepr_inj {m n : ℕ} (h : Nat.repr m = Nat.repr n) : m = n := by
  have hdig : Nat.toDigits 10 m = Nat.toDigits 10 n := congrArg String.data h
  have hv := congrArg digitsValue hdig
  rwa [digitsValue_toDigits, digitsValue_toDigits] at hv

theorem string_append_left_cancel {p a b : String} (h : p ++ a = p ++ b) : a = b := by
  have hd := congrArg String.data h
  rw [string_append_data, string_append_data] at hd
  exact String.ext (List.append_cancel_left hd)

theorem nameT_inj : Function.Injective (fun i : ℕ => "T" ++ Nat.repr (i + 1)) := by
  intro m n h
  have h2 : Nat.repr (m + 1) = Nat.repr (n + 1) := string_append_left_cancel h
  have h3 := natRepr_inj h2
  omega

theorem spanTableOk_nil : spanTableOk ([] : List SpanStyleEntry) := by
  constructor <;> simp [spanTableOk]

theorem spanTableOk_names_nodup {l : List SpanStyleEntry} (h : spanTableOk l) :
    (l.map fun e => e.name).Nodup := by
  rw [h.2]
  exact List.Nodup.map nameT_inj (List.nodup_range l.length)

theorem getSpanStyle_eq_skip (s : TextSpan) (reg : StyleRegistry)
    (h : eligibleSpan s = false) : getSpanStyle s reg = (none, reg) := by
  by_cases h1 : s.fontFamily.isSome
  · simp [getSpanStyle, h1]
  · have h2 : hasFormatting s = false := by
      simp [eligibleSpan, h1] at h
      exact h
    simp [getSpanStyle, h1, h2]

theorem getSpanStyle_eq_hit (s : TextSpan) (reg : StyleRegistry) (e : SpanStyleEntry)
    (he : eligibleSpan s = true)
    (hf : reg.spanStyles.find? (fun x => x.key = keyForSpan s) = some e) :
    getSpanStyle s reg = (some e.name, reg) := by
  obtain ⟨h1, h2⟩ : s.fontFamily.isSome = false ∧ hasFormatting s = true := by
    simpa [eligibleSpan] using he
  simp [getSpanStyle, h1, h2, hf]

theorem getSpanStyle_eq_miss (s : TextSpan) (reg : StyleRegistry)
    (he : eligibleSpan s = true)
    (hf : reg.spanStyles.find? (fun x => x.key = keyForSpan s) = none) :
    getSpanStyle s reg =
      (some ("T" ++ Nat.repr (reg.spanStyles.length + 1)),
       { reg with spanStyles := reg.spanStyles ++
           [⟨keyForSpan s, "T" ++ Nat.repr (reg.spanStyles.length + 1), s⟩] }) := by
  obtain ⟨h1, h2⟩ : s.fontFamily.isSome = false ∧ hasFormatting s = true := by
    simpa [eligibleSpan] using he
  simp [getSpanStyle, h1, h2, hf]

theorem find?_append_stable {α : Type} {l : List α} {p : α → Bool} {e : α} (t : List α)
    (h : l.find? p = some e) : (l ++ t).find? p = some e := by
  induction l with
  | nil => simp [List.find?] at h
  | cons a l ih =>
    rw [List.cons_append]
    cases hp : p a with
    | true =>
      rw [List.find?_cons_of_pos _ hp] at h
      rw [List.find?_cons_of_pos _ hp]
      exact h
    | false =>
      rw [List.find?_cons_of_neg _ (by simp [hp])] at h
      rw [List.find?_cons_of_neg _ (by simp [hp])]
      exact ih h

theorem find?_append_none {α : Type} {l : List α} {p : α → Bool} (t : List α)
    (h : l.find? p = none) : (l ++ t).find? p = t.find? p := by
  induction l with
  | nil => simp
  | cons a l ih =>
    rw [List.cons_append]
    cases hp : p a with
    | true =>
      rw [List.find?_cons_of_pos _ hp] at h
      exact absurd h (by simp)
    | false =>
      rw [List.find?_cons_of_neg _ (by simp [hp])] at h
      rw [List.find?_cons_of_neg _ (by simp [hp])]
      exact ih h

theorem eligibleSpan_eq_false {s : TextSpan} (he : ¬ eligibleSpan s = true) :
    eligibleSpan s = false := by
  revert he
  cases eligibleSpan s <;> simp

theorem getSpanStyle_preserves (s : TextSpan) (reg : StyleRegistry)
    (h : spanTableOk reg.spanStyles) :
    spanTableOk ((getSpanStyle s reg).2).spanStyles := by
  by_cases he : eligibleSpan s = true
  · cases hf : reg.spanStyles.find? (fun x => x.key = keyForSpan s) with
    | some e =>
      rw [getSpanStyle_eq_hit s reg e he hf]
      exact h
    | none =>
      rw [getSpanStyle_eq_miss s reg he hf]
      obtain ⟨hnodup, hnames⟩ := h
      constructor
      · rw [List.map_append]
        refine List.nodup_append.mpr ⟨hnodup, List.nodup_singleton _, ?_⟩
        intro a ha hb
        simp only [List.map_cons, List.map_nil, List.mem_singleton] at hb
        obtain ⟨x, hx, hxa⟩ := List.mem_map.mp ha
        have hne := List.find?_eq_none.mp hf x hx
        simp at hne
        exact hne (hxa.trans hb)
      · rw [List.map_append, List.length_append]
        simp only [List.map_cons, List.map_nil, List.length_cons, List.length_nil]
        rw [hnames, List.range_succ, List.map_append]
        simp only [List.map_cons, List.map_nil]
  · rw [getSpanStyle_eq_skip s reg (eligibleSpan_eq_false he)]
    exact h

theorem runSpanStyles_preserves (spans : List TextSpan) :
    ∀ reg : StyleRegistry, spanTableOk reg.spanStyles →
      spanTableOk ((runSpanStyles spans reg).2).spanStyles := by
  induction spans with
  | nil => intro reg h; exact h
  | cons s rest ih =>
    intro reg h
    rcases hg : getSpanStyle s reg with ⟨n0, reg1⟩
    rcases hr : runSpanStyles rest reg1 with ⟨ns, reg2⟩
    have hrun : runSpanStyles (s :: rest) reg = (n0 :: ns, reg2) := by
      simp [runSpanStyles, hg, hr]
    rw [hrun]
    have h1 : spanTableOk reg1.spanStyles := by
      have h2 := getSpanStyle_preserves s reg h
      rw [hg] at h2
      exact h2
    have h3 := ih reg1 h1
    rw [hr] at h3
    exact h3

theorem getSpanStyle_extends (s : TextSpan) (reg : StyleRegistry) :
    ∃ t, ((getSpanStyle s reg).2).spanStyles = reg.spanStyles ++ t := by
  by_cases he : eligibleSpan s = true
  · cases hf : reg.spanStyles.find? (fun x => x.key = keyForSpan s) with
    | some e =>
      refine ⟨[], ?_⟩
      rw [getSpanStyle_eq_hit s reg e he hf]
      simp
    | none =>
      refine ⟨[⟨keyForSpan s, "T" ++ Nat.repr (reg.spanStyles.length + 1), s⟩], ?_⟩
      rw [getSpanStyle_eq_miss s reg he hf]
  · refine ⟨[], ?_⟩
    rw [getSpanStyle_eq_skip s reg (eligibleSpan_eq_false he)]
    simp

theorem runSpanStyles_extends (spans : List TextSpan) :
    ∀ reg : StyleRegistry, ∃ t,
      ((runSpanStyles spans reg).2).spanStyles = reg.spanStyles ++ t := by
  induction spans with
  | nil =>
    intro reg
    refine ⟨[], ?_⟩
    simp [runSpanStyles]
  | cons s rest ih =>
    intro reg
    rcases hg : getSpanStyle s reg with ⟨n0, reg1⟩
    rcases hr : runSpanStyles rest reg1 with ⟨ns, reg2⟩
    have hrun : runSpanStyles (s :: rest) reg = (n0 :: ns, reg2) := by
      simp [runSpanStyles, hg, hr]
    rw [hrun]
    obtain ⟨t1, ht1⟩ := getSpanStyle_extends s reg
    rw [hg] at ht1
    obtain ⟨t2, ht2⟩ := ih reg1
    rw [hr] at ht2
    refine ⟨t1 ++ t2, ?_⟩
    rw [ht2, ht1, List.append_assoc]

theorem runSpanStyles_names (spans : List TextSpan) :
    ∀ (reg : StyleRegistry) (i : ℕ) (si : TextSpan) (a : String),
      spans.get? i = some si →
      ((runSpanStyles spans reg).1).get? i = some (some a) →
      eligibleSpan si = true ∧
      ∃ e, ((runSpanStyles spans reg).2).spanStyles.find?
          (fun x => x.key = keyForSpan si) = some e ∧ e.name = a := by
  induction spans with
  | nil =>
    intro reg i si a hs _
    simp at hs
  | cons s rest ih =>
    intro reg i si a hs hn
    rcases hg : getSpanStyle s reg with ⟨n0, reg1⟩
    rcases hr : runSpanStyles rest reg1 with ⟨ns, reg2⟩
    have hrun : runSpanStyles (s :: rest) reg = (n0 :: ns, reg2) := by
      simp [runSpanStyles, hg, hr]
    rw [hrun] at hn ⊢
    cases i with
    | zero =>
      rw [List.get?_cons_zero] at hs hn
      have hs' : s = si := Option.some.inj hs
      subst hs'
      have hn' : n0 = some a := Option.some.inj hn
      by_cases he : eligibleSpan s = true
      · refine ⟨he, ?_⟩
        cases hf : reg.spanStyles.find? (fun x => x.key = keyForSpan s) with
        | some e =>
          have hgv := getSpanStyle_eq_hit s reg e he hf
          rw [hgv] at hg
          have hg1 : some e.name = n0 := congrArg Prod.fst hg
          have hg2 : reg = reg1 := congrArg Prod.snd hg
          subst hg2
          obtain ⟨t, ht⟩ := runSpanStyles_extends rest reg
          rw [hr] at ht
          refine ⟨e, ?_, ?_⟩
          · rw [ht]
            exact find?_append_stable t hf
          · exact Option.some.inj (hg1.trans hn')
        | none =>
          have hgv := getSpanStyle_eq_miss s reg he hf
          rw [hgv] at hg
          have hg1 : some ("T" ++ Nat.repr (reg.spanStyles.length + 1)) = n0 :=
            congrArg Prod.fst hg
          have hg2 : ({ reg with spanStyles := reg.spanStyles ++
              [SpanStyleEntry.mk (keyForSpan s)
                ("T" ++ Nat.repr (reg.spanStyles.length + 1)) s] }
                : StyleRegistry) = reg1 := congrArg Prod.snd hg
          obtain ⟨t, ht⟩ := runSpanStyles_extends rest reg1
          rw [hr] at ht
          have h3 : reg1.spanStyles = reg.spanStyles ++
              [SpanStyleEntry.mk (keyForSpan s)
                ("T" ++ Nat.repr (reg.spanStyles.length + 1)) s] := by
            rw [← hg2]
          refine ⟨SpanStyleEntry.mk (keyForSpan s)
            ("T" ++ Nat.repr (reg.spanStyles.length + 1)) s, ?_, ?_⟩
          · have hfind : (reg.spanStyles ++
                [SpanStyleEntry.mk (keyForSpan s)
                  ("T" ++ Nat.repr (reg.spanStyles.length + 1)) s]).find?
                  (fun x => x.key = keyForSpan s)
                = some (SpanStyleEntry.mk (keyForSpan s)
                  ("T" ++ Nat.repr (reg.spanStyles.length + 1)) s) := by
              rw [find?_append_none _ hf]
              simp
            rw [ht, h3]
            exact find?_append_stable t hfind
          · exact Option.some.inj (hg1.trans hn')
      · have hgv := getSpanStyle_eq_skip s reg (eligibleSpan_eq_false he)
        rw [hgv] at hg
        have hg1 : (none : Option String) = n0 := congrArg Prod.fst hg
        rw [← hg1] at hn'
        exact absurd hn' (by simp)
    | succ j =>
      rw [List.get?_cons_succ] at hs hn
      have hres := ih reg1 j si a hs (by rw [hr]; exact hn)
      rcases hres with ⟨hel, e, hfe, hna⟩
      rw [hr] at hfe
      exact ⟨hel, e, hfe, hna⟩

/-- C3 counterexample: two spans whose tracked formatting-property
combinations differ (their `color` fields are distinct, and so are their
`fontSize` fields) are nevertheless assigned the same generated style name
`T1` in one build, because the registry's canonical key joins the
property values with the unescaped delimiter `|`, so the pair
`color = "p|f:q", fontSize = none` collides with the pair
`color = "p", fontSize = "q|f:"`. -/
theorem c3_counterexample :
    ((runSpanStyles [{ text := "x", color := some ("p|f:q") },
        { text := "y", color := some ("p"), fontSize := some ("q|f:") }] {}).1
      = [some ("T1"), some ("T1")]) ∧
    ({ text := "x", color := some ("p|f:q") } : TextSpan).color ≠
      ({ text := "y", color := some ("p"), fontSize := some ("q|f:") } : TextSpan).color := by
  with_unfolding_all decide

/-- C3 (amended): within one build starting from a fresh registry, two
spans that both receive a generated style name receive the *same* name
exactly when their canonical serialized keys (`keyForSpan`) agree.  In
particular spans with an identical tracked formatting-property
combination share one name; distinct combinations get distinct names
unless their `|`-joined serializations collide (see the
counterexample). -/
theorem c3_amended (spans : List TextSpan) (i j : ℕ) (si sj : TextSpan) (a b : String)
    (hsi : spans.get? i = some si) (hsj : spans.get? j = some sj)
    (hna : ((runSpanStyles spans {}).1).get? i = some (some a))
    (hnb : ((runSpanStyles spans {}).1).get? j = some (some b)) :
    a = b ↔ keyForSpan si = keyForSpan sj := by
  obtain ⟨hea, ea, hfa, hnaf⟩ := runSpanStyles_names spans {} i si a hsi hna
  obtain ⟨heb, eb, hfb, hnbf⟩ := runSpanStyles_names spans {} j sj b hsj hnb
  have hok : spanTableOk ((runSpanStyles spans {}).2).spanStyles :=
    runSpanStyles_preserves spans {} spanTableOk_nil
  constructor
  · intro hab
    have hma := List.mem_of_find?_eq_some hfa
    have hmb := List.mem_of_find?_eq_some hfb
    have hnodup : (((runSpanStyles spans {}).2).spanStyles.map fun e => e.name).Nodup :=
      spanTableOk_names_nodup hok
    have heq : ea = eb :=
      List.inj_on_of_nodup_map hnodup hma hmb (by rw [hnaf, hnbf, hab])
    have hka := List.find?_some hfa
    have hkb := List.find?_some hfb
    simp at hka hkb
    rw [← hka, ← hkb, heq]
  · intro hkey
    rw [hkey] at hfa
    have heq : ea = eb := Option.some.inj (hfa.symm.trans hfb)
    rw [← hnaf, ← hnbf, heq]

/-- Closed instance of `c3_amended`: the two bold spans of the witness
list receive the names read off from position 0 and 1 of the run, and the
equivalence evaluates as expected. -/
theorem c3_amended_witness :
    (("T1" : String) = "T1" ↔
      keyForSpan { text := "a", bold := some true } =
        keyForSpan { text := "b", bold := some true }) :=
  c3_amended [{ text := "a", bold := some true }, { text := "b", bold := some true }] 0 1
    { text := "a", bold := some true } { text := "b", bold := some true } ("T1") ("T1")
    (by with_unfolding_all decide) (by with_unfolding_all decide)
    (by with_unfolding_all decide) (by with_unfolding_all decide)

theorem regProj_find? (l : List SpanStyleEntry) (k : String) :
    (regProj l).find? (fun p => p.1 = k)
      = (l.find? (fun e => e.key = k)).map (fun e => (e.key, e.name)) := by
  induction l with
  | nil => simp [regProj]
  | cons e l ih =>
    by_cases hk : e.key = k
    · simp [regProj, List.find?_cons, hk]
    · simpa [regProj, List.find?_cons, hk] using ih

theorem internKeys_cons_hit (k : String) (rest : List String) (tbl : List (String × String))
    (e : String × String) (hf : tbl.find? (fun p => p.1 = k) = some e) :
    internKeys (k :: rest) tbl
      = (e.2 :: (internKeys rest tbl).1, (internKeys rest tbl).2) := by
  rcases hik : internKeys rest tbl with ⟨ns, tbl2⟩
  simp [internKeys, hf, hik]

theorem internKeys_cons_miss (k : String) (rest : List String) (tbl : List (String × String))
    (hf : tbl.find? (fun p => p.1 = k) = none) :
    internKeys (k :: rest) tbl
      = (("T" ++ Nat.repr (tbl.length + 1)) ::
           (internKeys rest (tbl ++ [(k, "T" ++ Nat.repr (tbl.length + 1))])).1,
         (internKeys rest (tbl ++ [(k, "T" ++ Nat.repr (tbl.length + 1))])).2) := by
  rcases hik : internKeys rest (tbl ++ [(k, "T" ++ Nat.repr (tbl.length + 1))]) with ⟨ns, tbl2⟩
  simp [internKeys, hf, hik]

theorem runSpanStyles_internKeys (spans : List TextSpan) :
    ∀ reg : StyleRegistry,
      ((runSpanStyles spans reg).1).filterMap id
          = (internKeys (spanKeyTrace spans) (regProj reg.spanStyles)).1 ∧
      regProj ((runSpanStyles spans reg).2).spanStyles
          = (internKeys (spanKeyTrace spans) (regProj reg.spanStyles)).2 := by
  induction spans with
  | nil =>
    intro reg
    constructor <;> simp [runSpanStyles, spanKeyTrace, internKeys]
  | cons s rest ih =>
    intro reg
    rcases hg : getSpanStyle s reg with ⟨n0, reg1⟩
    rcases hr : runSpanStyles rest reg1 with ⟨ns, reg2⟩
    have hrun : runSpanStyles (s :: rest) reg = (n0 :: ns, reg2) := by
      simp [runSpanStyles, hg, hr]
    rw [hrun]
    by_cases he : eligibleSpan s = true
    · have htr : spanKeyTrace (s :: rest) = keyForSpan s :: spanKeyTrace rest := by
        simp [spanKeyTrace, List.filterMap_cons, he]
      rw [htr]
      cases hf : reg.spanStyles.find? (fun x => x.key = keyForSpan s) with
      | some e =>
        have hgv := getSpanStyle_eq_hit s reg e he hf
        rw [hgv] at hg
        have hg1 : some e.name = n0 := congrArg Prod.fst hg
        have hg2 : reg = reg1 := congrArg Prod.snd hg
        subst hg2
        have hfp : (regProj reg.spanStyles).find? (fun p => p.1 = keyForSpan s)
            = some (e.key, e.name) := by
          rw [regProj_find?, hf]
          rfl
        rw [internKeys_cons_hit (keyForSpan s) (spanKeyTrace rest)
          (regProj reg.spanStyles) (e.key, e.name) hfp]
        have ih1 : ns.filterMap id
            = (internKeys (spanKeyTrace rest) (regProj reg.spanStyles)).1 := by
          have h4 := (ih reg).1
          rw [hr] at h4
          exact h4
        have ih2 : regProj reg2.spanStyles
            = (internKeys (spanKeyTrace rest) (regProj reg.spanStyles)).2 := by
          have h4 := (ih reg).2
          rw [hr] at h4
          exact h4
        constructor
        · rw [← hg1]
          simp only [List.filterMap_cons, id_eq]
          rw [ih1]
        · exact ih2
      | none =>
        have hgv := getSpanStyle_eq_miss s reg he hf
        rw [hgv] at hg
        have hg1 : some ("T" ++ Nat.repr (reg.spanStyles.length + 1)) = n0 :=
          congrArg Prod.fst hg
        have hg2 : ({ reg with spanStyles := reg.spanStyles ++
            [SpanStyleEntry.mk (keyForSpan s)
              ("T" ++ Nat.repr (reg.spanStyles.length + 1)) s] }
              : StyleRegistry) = reg1 := congrArg Prod.snd hg
        have hfp : (regProj reg.spanStyles).find? (fun p => p.1 = keyForSpan s) = none := by
          rw [regProj_find?, hf]
          rfl
        rw [internKeys_cons_miss (keyForSpan s) (spanKeyTrace rest)
          (regProj reg.spanStyles) hfp]
        have hlen : (regProj reg.spanStyles).length = reg.spanStyles.length := by
          simp [regProj]
        rw [hlen]
        have hproj : regProj reg1.spanStyles
            = regProj reg.spanStyles ++
                [(keyForSpan s, "T" ++ Nat.repr (reg.spanStyles.length + 1))] := by
          rw [← hg2]
          simp [regProj]
        have ih1 : ns.filterMap id
            = (internKeys (spanKeyTrace rest) (regProj reg1.spanStyles)).1 := by
          have h4 := (ih reg1).1
          rw [hr] at h4
          exact h4
        have ih2 : regProj reg2.spanStyles
            = (internKeys (spanKeyTrace rest) (regProj reg1.spanStyles)).2 := by
          have h4 := (ih reg1).2
          rw [hr] at h4
          exact h4
        rw [hproj] at ih1 ih2
        constructor
        · rw [← hg1]
          simp only [List.filterMap_cons, id_eq]
          rw [ih1]
        · exact ih2
    · have he' : eligibleSpan s = false := eligibleSpan_eq_false he
      have htr : spanKeyTrace (s :: rest) = spanKeyTrace rest := by
        simp [spanKeyTrace, List.filterMap_cons, he']
      rw [htr]
      have hgv := getSpanStyle_eq_skip s reg he'
      rw [hgv] at hg
      have hg1 : (none : Option String) = n0 := congrArg Prod.fst hg
      have hg2 : reg = reg1 := congrArg Prod.snd hg
      subst hg2
      have ih1 : ns.filterMap id
          = (internKeys (spanKeyTrace rest) (regProj reg.spanStyles)).1 := by
        have h4 := (ih reg).1
        rw [hr] at h4
        exact h4
      have ih2 : regProj reg2.spanStyles
          = (internKeys (spanKeyTrace rest) (regProj reg.spanStyles)).2 := by
        have h4 := (ih reg).2
        rw [hr] at h4
        exact h4
      constructor
      · rw [← hg1]
        simp only [List.filterMap_cons, id_eq]
        exact ih1
      · exact ih2

/-- C6: the content-XML builder is a pure function of the `OdtDoc` value
(two runs on equal inputs are byte-identical, including generated style
names), and the assigned span style names depend only on the traversal
trace of canonical keys: any two span lists with the same trace receive
the same name sequence, because interning folds over the insertion-ordered
table in traversal order. -/
theorem c6_determinism :
    (∀ d1 d2 : OdtDoc, d1 = d2 → buildContentXml d1 = buildContentXml d2) ∧
    (∀ s1 s2 : List TextSpan, spanKeyTrace s1 = spanKeyTrace s2 →
      assignedSpanNames s1 = assignedSpanNames s2) := by
  constructor
  · intro d1 d2 h
    rw [h]
  · intro s1 s2 h
    show ((runSpanStyles s1 {}).1).filterMap id = ((runSpanStyles s2 {}).1).filterMap id
    rw [(runSpanStyles_internKeys s1 {}).1, (runSpanStyles_internKeys s2 {}).1, h]

/-- Closed instance of `c6_determinism`: the builder agrees with itself on
a concrete document, and two span lists with equal key traces (differing
only in raw text) receive identical name sequences. -/
theorem c6_determinism_witness :
    buildContentXml { meta := {}, styles := {}, body := [] }
        = buildContentXml { meta := {}, styles := {}, body := [] } ∧
    assignedSpanNames [{ text := "a", bold := some true }]
        = assignedSpanNames [{ text := "b", bold := some true }] :=
  ⟨c6_determinism.1 { meta := {}, styles := {}, body := [] }
      { meta := {}, styles := {}, body := [] } rfl,
   c6_determinism.2 [{ text := "a", bold := some true }] [{ text := "b", bold := some true }]
      (by with_unfolding_all decide)⟩

/-- C9: the import converter is a total function of its input (the
embedding is a plain Lean function, so every input yields a string): a
missing document, a document whose `content` root is missing, and a root
under which no `office:text` node is found all yield the empty string;
a node whose `styleApplication` is absent, or whose `resolvedProperties`
map is absent, resolves to an empty property list, so the paragraph and
span inline style attributes degrade to the empty string rather than
raising. -/
theorem c9_never_throws :
    odtJsonToHtml none = "" ∧
    (∀ d : OdtJsonDocument, d.content = none → odtJsonToHtml (some d) = "") ∧
    (∀ (d : OdtJsonDocument) (root : OdtNode), d.content = some root →
      findNodeByName root ("office:text") = none → odtJsonToHtml (some d) = "") ∧
    (∀ (node : OdtNode) (key : String), node.styleApplication = none →
      getResolvedProperties node key = []) ∧
    (∀ (node : OdtNode) (key : String),
      node.styleApplication = some { resolvedProperties := none } →
      getResolvedProperties node key = []) ∧
    (∀ node : OdtNode, node.styleApplication = none →
      paragraphStyleAttr node = "" ∧ spanStyleAttr node = "") := by
  refine ⟨rfl, ?_, ?_, ?_, ?_, ?_⟩
  · intro d h
    obtain ⟨c⟩ := d
    have hc : c = none := h
    subst hc
    rfl
  · intro d root h hf
    obtain ⟨c⟩ := d
    have hc : c = some root := h
    subst hc
    show (match findNodeByName root ("office:text") with
      | none => ""
      | some officeText => nodesToHtml officeText.children) = ""
    rw [hf]
  · intro node key h
    unfold getResolvedProperties
    rw [h]
  · intro node key h
    unfold getResolvedProperties
    rw [h]
  · intro node h
    have h1 : getResolvedProperties node ("style:paragraph-properties") = [] := by
      unfold getResolvedProperties
      rw [h]
    have h2 : getResolvedProperties node ("style:text-properties") = [] := by
      unfold getResolvedProperties
      rw [h]
    constructor
    · unfold paragraphStyleAttr
      rw [h1, h2]
      with_unfolding_all rfl
    · unfold spanStyleAttr
      rw [h2]
      with_unfolding_all rfl

/-- Closed instance of `c9_never_throws` at concrete degenerate inputs:
a document without content, a document whose root has no `office:text`
descendant, and nodes without style data. -/
theorem c9_never_throws_witness :
    odtJsonToHtml (some { content := none }) = "" ∧
    odtJsonToHtml (some { content := some (OdtNode.mk ("ELEMENT") ("text:x") [] none [] none) }) = "" ∧
    getResolvedProperties (OdtNode.mk ("ELEMENT") ("text:p") [] none [] none)
      ("style:paragraph-properties") = [] ∧
    getResolvedProperties (OdtNode.mk ("ELEMENT") ("text:p") [] none []
      (some { resolvedProperties := none })) ("style:text-properties") = [] ∧
    paragraphStyleAttr (OdtNode.mk ("ELEMENT") ("text:p") [] none [] none) = "" ∧
    spanStyleAttr (OdtNode.mk ("ELEMENT") ("text:span") [] none [] none) = "" :=
  ⟨c9_never_throws.2.1 { content := none } rfl,
   c9_never_throws.2.2.1
     { content := some (OdtNode.mk ("ELEMENT") ("text:x") [] none [] none) }
     (OdtNode.mk ("ELEMENT") ("text:x") [] none [] none) rfl
     (by simp [findNodeByName, findInChildren, OdtNode.name, OdtNode.children]),
   c9_never_throws.2.2.2.1 (OdtNode.mk ("ELEMENT") ("text:p") [] none [] none)
     ("style:paragraph-properties") rfl,
   c9_never_throws.2.2.2.2.1 (OdtNode.mk ("ELEMENT") ("text:p") [] none []
     (some { resolvedProperties := none })) ("style:text-properties") rfl,
   (c9_never_throws.2.2.2.2.2 (OdtNode.mk ("ELEMENT") ("text:p") [] none [] none) rfl).1,
   (c9_never_throws.2.2.2.2.2 (OdtNode.mk ("ELEMENT") ("text:span") [] none [] none) rfl).2⟩

end ODT
